import Mathlib

/-! # pstack : thread enumeration and the Python object printer

A shallow embedding of `pstack()` (src/pstack.cc) and of `PythonPrinter`
(src/python.cc).  The interpreter's record layouts and the target reader
come from headers outside the two source files, so they appear here as the
fields of `Env`.  The printer's mutable members (`os`, `depth`, `visited`,
`types`) are the fields of `PState`; everything the printer does to the
outside (text sent to `os`, reads of the target, calls of a per-type
printer) is appended to `PState.trace`.
-/

namespace Pstack

/-! ## src/pstack.cc -/

/-- A thread handle as the thread-database iteration presents it to the
callback of `pstack()`: whether `td_thr_getgregs` answers `TD_OK`, the
registers it fills in, and the `ti_lid` that `td_thr_get_info` reports. -/
structure ThrHandle where
  gregsOk : Bool
  regs : Nat
  ti_lid : Int
  deriving DecidableEq, Repr

/-- The part of `ThreadStack` that `pstack()` itself fills in: `info.ti_lid`
and the registers handed to `unwind`. -/
structure ThreadStack where
  ti_lid : Int
  regs : Nat
  deriving DecidableEq, Repr

/-- The two containers the enumeration builds: `threadStacks` (a list,
`push_back` appends) and `tracedLwps` (a set of ids). -/
structure Enum where
  threadStacks : List ThreadStack
  tracedLwps : List Int
  deriving DecidableEq, Repr

/-- The lambda given to `proc.listThreads` (pstack.cc lines 32-48). -/
def listThreadsCallback (acc : Enum) (thr : ThrHandle) : Enum :=
  if thr.gregsOk then
    { threadStacks := acc.threadStacks ++ [{ ti_lid := thr.ti_lid, regs := thr.regs }]
      tracedLwps := thr.ti_lid :: acc.tracedLwps }
  else acc

/-- One step of the loop over `proc.lwps` (pstack.cc lines 50-58); `getRegs`
is `proc.getRegs`. -/
def lwpStep (getRegs : Int → Nat) (acc : Enum) (lwp : Int) : Enum :=
  if lwp ∈ acc.tracedLwps then acc
  else
    { threadStacks := acc.threadStacks ++ [{ ti_lid := lwp, regs := getRegs lwp }]
      tracedLwps := acc.tracedLwps }

/-- The list `threadStacks` that `pstack()` has built when it leaves the stop
scope.  `handles` is what the thread-database iteration yields, in order;
`lwps` is the key sequence of the map `proc.lwps`, in iteration order. -/
def pstack (getRegs : Int → Nat) (handles : List ThrHandle) (lwps : List Int) :
    List ThreadStack :=
  ((lwps.foldl (lwpStep getRegs)
      (handles.foldl listThreadsCallback { threadStacks := [], tracedLwps := [] }))).threadStacks

/-- How many entries of the thread list carry the id `lid`. -/
def lidCount (lid : Int) (l : List ThreadStack) : Nat :=
  (l.filter (fun t => t.ti_lid = lid)).length

/-! ## src/python.cc : data model -/

/-- `Elf_Addr`: an unsigned 64-bit integer. -/
abbrev Addr := Nat

/-- The cast `Elf_Addr(p)` and every `Elf_Addr` sum: reduction modulo 2^64. -/
def toAddr (x : Int) : Addr := (x % (2 ^ 64 : Int)).toNat

/-- The value an `intmax_t`/`ssize_t` holds after a computation whose
mathematical result is `x` (two's complement, 64 bits). -/
def wrapS64 (x : Int) : Int := (x + 2 ^ 63) % 2 ^ 64 - 2 ^ 63

structure PyVarObject where
  ob_refcnt : Int
  ob_type : Nat
  ob_size : Int
  deriving DecidableEq, Repr

structure PyTypeObject where
  tp_name : Nat
  tp_basicsize : Int
  tp_itemsize : Int
  tp_flags : Nat
  tp_dictoffset : Int
  deriving DecidableEq, Repr

structure PyListObject where
  ob_size : Int
  ob_item : Nat
  deriving DecidableEq, Repr

structure PyDictObject where
  ma_used : Int
  ma_mask : Int
  ma_table : Nat
  deriving DecidableEq, Repr

structure PyDictEntry where
  me_key : Nat
  me_value : Nat
  deriving DecidableEq, Repr

structure PyInstanceObject where
  in_class : Nat
  in_dict : Nat
  deriving DecidableEq, Repr

structure PyLongObject where
  ob_size : Int
  ob_digit : Nat → Nat

structure PyFrameObject where
  f_code : Nat
  f_back : Nat
  f_locals : Nat
  f_lasti : Int
  deriving DecidableEq, Repr

structure PyCodeObject where
  co_lnotab : Nat
  co_name : Nat
  co_filename : Nat
  co_varnames : Nat
  co_cellvars : Nat
  co_freevars : Nat
  co_firstlineno : Int
  co_nlocals : Int
  deriving DecidableEq, Repr

/-- The bytes `print` reads into `buf`, seen through each of the casts the
per-type printers apply to them. -/
structure Buf where
  ob_sval : String
  ob_fval : Nat
  ob_ival : Int
  list : PyListObject
  cl_name : Nat
  dict : PyDictObject
  type : PyTypeObject
  inst : PyInstanceObject
  long : PyLongObject
  frame : PyFrameObject

/-- The per-type printer functions of python.cc. -/
inductive PrinterKind where
  | heapPrint | stringPrint | floatPrint | intPrint | boolPrint | modulePrint
  | listPrint | classPrint | dictPrint | typePrint | instancePrint | longPrint
  | framePrint
  deriving DecidableEq, Repr

/-- `PyPrinterEntry`: a printer function and its `dupdetect` flag. -/
structure PyPrinterEntry where
  printer : PrinterKind
  dupdetect : Bool
  deriving DecidableEq, Repr

/-- The type symbols `addPrinter` resolves, in the order of the constructor. -/
structure TypeSyms where
  PyString_Type : Addr
  PyDict_Type : Addr
  PyLong_Type : Addr
  PyFrame_Type : Addr
  PyInt_Type : Addr
  PyType_Type : Addr
  PyBool_Type : Addr
  PyInstance_Type : Addr
  PyModule_Type : Addr
  PyClass_Type : Addr
  PyList_Type : Addr
  PyFloat_Type : Addr

/-- What the printer takes from outside python.cc: the target reader
(`proc.io`), the layout constants of the interpreter headers, the resolved
type symbols and the `doargs` option. -/
structure Env where
  readVarObject : Addr → Option PyVarObject
  readTypeObject : Addr → Option PyTypeObject
  readString : Addr → Option String
  readBuf : Addr → Nat → Option Buf
  readPtr : Addr → Option Nat
  readByte : Addr → Option Nat
  readDictEntry : Addr → Option PyDictEntry
  readCode : Addr → Option PyCodeObject
  ptrSize : Nat
  dictEntrySize : Nat
  svalOffset : Nat
  tupleItemOffset : Nat
  localsplusOffset : Nat
  heapTypeFlag : Nat
  pyLongShift : Nat
  syms : TypeSyms
  doargs : Bool

/-- What `os << x` can be given in python.cc. -/
inductive Piece where
  | str (s : String)
  | indent
  | num (v : Option Int)
  | flt (bits : Nat)
  | addr (a : Nat)
  deriving DecidableEq, Repr

/-- The kinds of target read python.cc performs. -/
inductive ReadKind where
  | header | typeObject | string | body | ptrs | bytes | dictEntry | tuple | code
  deriving DecidableEq, Repr

/-- One observable action of the printer: text sent to `os` (with the value
of `depth` at that moment; `Piece.indent` is the result of `prefix()` there),
a read of `count` items at a target address, or the call of a per-type
printer on the object at an address. -/
inductive Event where
  | emit (depth : Int) (p : Piece)
  | read (kind : ReadKind) (addr : Addr) (count : Int)
  | invoke (k : PrinterKind) (addr : Addr)
  deriving DecidableEq, Repr

/-- The mutable members of `PythonPrinter`, with the trace of its actions. -/
structure PState where
  trace : List Event
  depth : Int
  visited : List Addr
  types : List (Addr × PyTypeObject)

/-- How a call ends: normally with a value, or by a C++ exception; the
printer members keep their values either way. -/
inductive Res (α : Type) where
  | ok (a : α) (s : PState)
  | thrown (s : PState)

/-- A computation over the printer; `none` means the recursion budget of the
model ran out before the call ended. -/
def M (α : Type) : Type := PState → Option (Res α)

def M.pure {α : Type} (a : α) : M α := fun s => some (.ok a s)

def M.bind {α β : Type} (m : M α) (f : α → M β) : M β := fun s =>
  match m s with
  | none => none
  | some (.thrown s') => some (.thrown s')
  | some (.ok a s') => f a s'

instance : Monad M where
  pure := M.pure
  bind := M.bind

/-- The statement `throw`. -/
def throwM {α : Type} : M α := fun s => some (.thrown s)

/-- The block `try { m } catch (...) { h }`. -/
def tryCatch (m : M Unit) (h : M Unit) : M Unit := fun s =>
  match m s with
  | none => none
  | some (.thrown s') => h s'
  | some (.ok a s') => some (.ok a s')

def logEvent (e : Event) : M Unit := fun s =>
  some (.ok () { s with trace := s.trace ++ [e] })

/-- The statement `os << p`. -/
def emit (p : Piece) : M Unit := fun s =>
  some (.ok () { s with trace := s.trace ++ [.emit s.depth p] })

def emitStr (t : String) : M Unit := emit (.str t)

/-- The statement `depth++`. -/
def incDepth : M Unit := fun s => some (.ok () { s with depth := s.depth + 1 })

/-- The statement `depth--`. -/
def decDepth : M Unit := fun s => some (.ok () { s with depth := s.depth - 1 })

/-- A read of the target: it is logged, and a failed read throws. -/
def readM {α : Type} (k : ReadKind) (a : Addr) (count : Int) (r : Option α) : M α := do
  logEvent (.read k a count)
  match r with
  | some v => pure v
  | none => throwM

/-- Reading `n` consecutive items of `size` bytes each with the single-item
reader `rd`; it fails when any of them does. -/
def readArray (rd : Addr → Option Nat) (size : Nat) (a : Addr) : Nat → Option (List Nat)
  | 0 => some []
  | n + 1 =>
    match readArray rd size a n, rd (toAddr (a + size * n)) with
    | some l, some v => some (l ++ [v])
    | _, _ => none

/-- The call `readObj(a, &array[0], count)`.  A negative `count` converts to a
`size_t` above 2^63, which no read can satisfy. -/
def readCount (rd : Addr → Option Nat) (size : Nat) (a : Addr) (count : Int) :
    Option (List Nat) :=
  if count < 0 then none else readArray rd size a count.toNat

/-! ## src/python.cc : the functions -/

/-- The loop of `getLine` over the bytes of the line-number table.  `none`
stands for the value of `line` after the loop has read one byte past the
table (a table of odd length): the source leaves that byte unspecified. -/
def lnotabWalk (f_lasti : Int) : List Nat → Int → Int → Option Int
  | [], line, _ => some line
  | a :: rest, line, addr =>
    if addr + a > f_lasti then some line
    else
      match rest with
      | [] => none
      | b :: rest' => lnotabWalk f_lasti rest' (line + b) (addr + a)

/-- The function `getLine` (python.cc lines 39-59). -/
def getLine (env : Env) (code : PyCodeObject) (frame : PyFrameObject) : M (Option Int) := do
  let lnotab ← readM .header (toAddr code.co_lnotab) 1 (env.readVarObject (toAddr code.co_lnotab))
  let linedata ← readM .bytes (toAddr (toAddr code.co_lnotab + env.svalOffset)) lnotab.ob_size
    (readCount env.readByte 1 (toAddr (toAddr code.co_lnotab + env.svalOffset)) lnotab.ob_size)
  pure (lnotabWalk frame.f_lasti linedata code.co_firstlineno 0)

/-- The function `heapPrint` (lines 61-76); `pr` is `pc->print`. -/
def heapPrint (env : Env) (pr : Addr → M Unit) (pto : PyTypeObject) (remote : Addr) :
    M Addr := do
  let name ← readM .string (toAddr pto.tp_name) 1 (env.readString (toAddr pto.tp_name))
  emitStr name
  if pto.tp_dictoffset > 0 then
    emitStr "\n"
    incDepth
    let dictAddr ← readM .ptrs (toAddr (remote + pto.tp_dictoffset)) 1
      (env.readPtr (toAddr (remote + pto.tp_dictoffset)))
    pr (toAddr dictAddr)
    decDepth
    emitStr "\n"
    pure 0
  else pure 0

/-- The function `stringPrint` (lines 78-84). -/
def stringPrint (pyo : Buf) : M Addr := do
  emitStr "\""
  emitStr pyo.ob_sval
  emitStr "\""
  pure 0

/-- The function `floatPrint` (lines 86-92). -/
def floatPrint (pyo : Buf) : M Addr := do
  emit (.flt pyo.ob_fval)
  pure 0

/-- The function `intPrint` (lines 95-101). -/
def intPrint (pyo : Buf) : M Addr := do
  emit (.num (some pyo.ob_ival))
  pure 0

/-- The function `boolPrint` (lines 103-109). -/
def boolPrint (pyo : Buf) : M Addr := do
  emitStr (if pyo.ob_ival ≠ 0 then "True" else "False")
  pure 0

/-- The function `modulePrint` (lines 111-116). -/
def modulePrint : M Addr := do
  emitStr "<python module>"
  pure 0

/-- The range-for of `listPrint` (lines 127-131). -/
def listLoop (pr : Addr → M Unit) : List Nat → M Unit
  | [] => pure ()
  | addr :: rest => do
    emit .indent
    pr (toAddr addr)
    emitStr "\n"
    listLoop pr rest

/-- The function `listPrint` (lines 118-136). -/
def listPrint (env : Env) (pr : Addr → M Unit) (pyo : Buf) : M Addr := do
  emitStr "list: \n"
  let size := min pyo.list.ob_size 100
  let objects ← readM .ptrs (toAddr pyo.list.ob_item) size
    (readCount env.readPtr env.ptrSize (toAddr pyo.list.ob_item) size)
  incDepth
  listLoop pr objects
  decDepth
  emitStr "\n"
  pure 0

/-- The function `classPrint` (lines 138-146). -/
def classPrint (pr : Addr → M Unit) (pyo : Buf) : M Addr := do
  emitStr "<class "
  pr (toAddr pyo.cl_name)
  emitStr ">"
  pure 0

/-- The body of the `for` of `dictPrint` for the slot `i` (lines 155-164). -/
def dictSlot (env : Env) (pr : Addr → M Unit) (pdo : PyDictObject) (i : Nat) : M Unit := do
  let pde ← readM .dictEntry (toAddr (pdo.ma_table + env.dictEntrySize * i)) 1
    (env.readDictEntry (toAddr (pdo.ma_table + env.dictEntrySize * i)))
  if pde.me_value = 0 then pure ()
  else if pde.me_key ≠ 0 then
    emit .indent
    pr (toAddr pde.me_key)
    emitStr ": "
    pr (toAddr pde.me_value)
    emitStr "\n"
  else pure ()

/-- The `for` of `dictPrint` from the slot `i` on, `n` being the number of
slots left before `i < pdo->ma_mask && i < 50` fails. -/
def dictLoop (env : Env) (pr : Addr → M Unit) (pdo : PyDictObject) : Nat → Nat → M Unit
  | 0, _ => pure ()
  | n + 1, i => do
    dictSlot env pr pdo i
    dictLoop env pr pdo n (i + 1)

/-- The function `dictPrint` (lines 148-167). -/
def dictPrint (env : Env) (pr : Addr → M Unit) (pyo : Buf) : M Addr :=
  if pyo.dict.ma_used = 0 then pure 0
  else do
    dictLoop env pr pyo.dict (min pyo.dict.ma_mask 50).toNat 0
    pure 0

/-- The function `typePrint` (lines 169-175). -/
def typePrint (env : Env) (pyo : Buf) : M Addr := do
  emitStr "type :\""
  let name ← readM .string (toAddr pyo.type.tp_name) 1 (env.readString (toAddr pyo.type.tp_name))
  emitStr name
  emitStr "\""
  pure 0

/-- The function `instancePrint` (lines 177-192). -/
def instancePrint (pr : Addr → M Unit) (pyo : Buf) : M Addr := do
  incDepth
  emitStr "\n"
  emit .indent
  emitStr "class: "
  incDepth
  pr (toAddr pyo.inst.in_class)
  decDepth
  emitStr "\n"
  emit .indent
  emitStr "dict: \n"
  incDepth
  pr (toAddr pyo.inst.in_dict)
  decDepth
  decDepth
  pure 0

/-- The operation `intmax_t(d) << c`: the low 64 bits of the product, read as
a signed value; a shift count of 64 or more has no defined result. -/
def shl64 (d : Nat) (c : Nat) : Option Int :=
  if c < 64 then some (wrapS64 (d * 2 ^ c)) else none

/-- The loop of `longPrint` (lines 199-201) from the index `i` on, `n` being
the number of digits left; `none` once a shift had no defined result. -/
def longLoop (shift : Nat) (digit : Nat → Nat) : Nat → Nat → Option Int → Option Int
  | 0, _, value => value
  | n + 1, i, value =>
    longLoop shift digit n (i + 1)
      (match value, shl64 (digit i) (shift * i) with
       | some v, some t => some (wrapS64 (v + t))
       | _, _ => none)

/-- The function `longPrint` (lines 194-204). -/
def longPrint (env : Env) (pyo : Buf) : M Addr := do
  emit (.num (longLoop env.pyLongShift pyo.long.ob_digit pyo.long.ob_size.toNat 0 (some 0)))
  pure 0

/-- The `for` of `printTupleVars` (lines 223-229). -/
def tupleLoop (pr : Addr → M Unit) : List Nat → List Nat → M Unit
  | name :: names, val :: vals => do
    emit .indent
    pr (toAddr name)
    emitStr "="
    pr (toAddr val)
    emitStr "\n"
    tupleLoop pr names vals
  | _, _ => pure ()

/-- The function `printTupleVars` (lines 206-233).  A negative `maxvals`
makes the `std::vector` constructor throw. -/
def printTupleVars (env : Env) (pr : Addr → M Unit) (namesAddr valuesAddr : Addr)
    (type : String) (maxvals : Int) : M Int := do
  let names ← readM .tuple namesAddr 1 (env.readVarObject namesAddr)
  let maxvals := min names.ob_size maxvals
  if maxvals = 0 then pure 0
  else if maxvals < 0 then throwM
  else
    let varnames ← readM .ptrs (toAddr (namesAddr + env.tupleItemOffset)) maxvals
      (readCount env.readPtr env.ptrSize (toAddr (namesAddr + env.tupleItemOffset)) maxvals)
    let varvals ← readM .ptrs valuesAddr maxvals
      (readCount env.readPtr env.ptrSize valuesAddr maxvals)
    emit .indent
    emitStr type
    emitStr ":"
    emitStr "\n"
    incDepth
    tupleLoop pr varnames varvals
    decDepth
    pure maxvals

/-- The block of `framePrint` under `doargs` for a frame with a code object
(lines 246-261). -/
def frameArgs (env : Env) (pr : Addr → M Unit) (code : PyCodeObject) (remoteAddr : Addr) :
    M Unit :=
  if env.doargs then do
    let flocals := toAddr (remoteAddr + env.localsplusOffset)
    incDepth
    let _ ← printTupleVars env pr (toAddr code.co_varnames) flocals "fastlocals" code.co_nlocals
    let flocals := toAddr (flocals + code.co_nlocals * env.ptrSize)
    let cellcount ← printTupleVars env pr (toAddr code.co_cellvars) flocals "cells" 1000000
    let flocals := toAddr (flocals + cellcount * env.ptrSize)
    let _ ← printTupleVars env pr (toAddr code.co_freevars) flocals "freevars" 1000000
    decDepth
  else pure ()

/-- The first `if` of `framePrint` (lines 239-262). -/
def frameCode (env : Env) (pr : Addr → M Unit) (pfo : PyFrameObject) (remoteAddr : Addr) :
    M Unit :=
  if pfo.f_code ≠ 0 then do
    let code ← readM .code (toAddr pfo.f_code) 1 (env.readCode (toAddr pfo.f_code))
    let lineNo ← getLine env code pfo
    let func ← readM .string (toAddr (toAddr code.co_name + env.svalOffset)) 1
      (env.readString (toAddr (toAddr code.co_name + env.svalOffset)))
    let file ← readM .string (toAddr (toAddr code.co_filename + env.svalOffset)) 1
      (env.readString (toAddr (toAddr code.co_filename + env.svalOffset)))
    emit .indent
    emitStr func
    emitStr " in "
    emitStr file
    emitStr ":"
    emit (.num lineNo)
    emitStr "\n"
    frameArgs env pr code remoteAddr
  else pure ()

/-- The second `if` of `framePrint` (lines 264-269). -/
def frameLocals (env : Env) (pr : Addr → M Unit) (pfo : PyFrameObject) : M Unit :=
  if env.doargs ∧ pfo.f_locals ≠ 0 then do
    incDepth
    emit .indent
    emitStr "locals: "
    emitStr "\n"
    pr (toAddr pfo.f_locals)
    decDepth
  else pure ()

/-- The function `framePrint` (lines 235-272). -/
def framePrint (env : Env) (pr : Addr → M Unit) (pyo : Buf) (remoteAddr : Addr) : M Addr := do
  frameCode env pr pyo.frame remoteAddr
  frameLocals env pr pyo.frame
  pure (toAddr pyo.frame.f_back)

/-- The size of the whitespace pool of `prefix()`: `sizeof spaces - 1`, six
string literals of 43 blanks each. -/
def spacesLen : Nat := 6 * 43

/-- The offset inside `spaces` of the pointer `prefix()` returns:
`sizeof spaces - 1 - depth * 4`. -/
def prefixStart (depth : Int) : Int := spacesLen - depth * 4

/-- The string `PythonPrinter::prefix()` returns (lines 274-286): the pool
from `prefixStart` up to its terminator, when that offset lies in the pool;
`none` when the pointer is outside the array. -/
def prefixSpaces (depth : Int) : Option String :=
  if 0 ≤ prefixStart depth ∧ prefixStart depth ≤ spacesLen then
    some (String.mk (List.replicate (spacesLen - (prefixStart depth).toNat) ' '))
  else none

/-- The map `printers` after the constructor has run (lines 347-358), as the
sequence of `addPrinter` calls; `emplace` keeps the first entry of a key. -/
def printers (t : TypeSyms) : List (Addr × PyPrinterEntry) :=
  [ (t.PyString_Type, ⟨.stringPrint, false⟩),
    (t.PyDict_Type, ⟨.dictPrint, true⟩),
    (t.PyLong_Type, ⟨.longPrint, false⟩),
    (t.PyFrame_Type, ⟨.framePrint, true⟩),
    (t.PyInt_Type, ⟨.intPrint, false⟩),
    (t.PyType_Type, ⟨.typePrint, false⟩),
    (t.PyBool_Type, ⟨.boolPrint, false⟩),
    (t.PyInstance_Type, ⟨.instancePrint, true⟩),
    (t.PyModule_Type, ⟨.modulePrint, false⟩),
    (t.PyClass_Type, ⟨.classPrint, false⟩),
    (t.PyList_Type, ⟨.listPrint, true⟩),
    (t.PyFloat_Type, ⟨.floatPrint, false⟩) ]

/-- The member `heapPrinter` (line 359). -/
def heapPrinter : PyPrinterEntry := ⟨.heapPrint, true⟩

/-- The lookup `printers.find(a)`. -/
def findPrinter (t : TypeSyms) (a : Addr) : Option PyPrinterEntry :=
  ((printers t).find? (fun e => e.1 = a)).map Prod.snd

/-- The lookup `types.find(a)`. -/
def findType (types : List (Addr × PyTypeObject)) (a : Addr) : Option PyTypeObject :=
  (types.find? (fun e => e.1 = a)).map Prod.snd

/-- A value-initialised `PyTypeObject`, what `types[a]` creates for a new key. -/
def zeroType : PyTypeObject :=
  { tp_name := 0, tp_basicsize := 0, tp_itemsize := 0, tp_flags := 0, tp_dictoffset := 0 }

/-- The assignment through the reference `types[a]`. -/
def setType (a : Addr) (t : PyTypeObject) : M Unit := fun s =>
  some (.ok () { s with types := (a, t) :: s.types })

/-- Lines 385-389 of `print`: the cached type descriptor of `a`, read from
the target the first time; the entry is created before the read. -/
def typeFor (env : Env) (a : Addr) : M PyTypeObject := fun s =>
  match findType s.types a with
  | some pto => some (.ok pto s)
  | none =>
    (do
      setType a zeroType
      let pto ← readM .typeObject a 1 (env.readTypeObject a)
      setType a pto
      pure pto) s

/-- The call `printer->printer(buf, &pto, this, remoteAddr)`. -/
def callPrinter (env : Env) (pr : Addr → M Unit) (k : PrinterKind) (pyo : Buf)
    (pto : PyTypeObject) (remoteAddr : Addr) : M Addr :=
  match k with
  | .heapPrint => heapPrint env pr pto remoteAddr
  | .stringPrint => stringPrint pyo
  | .floatPrint => floatPrint pyo
  | .intPrint => intPrint pyo
  | .boolPrint => boolPrint pyo
  | .modulePrint => modulePrint
  | .listPrint => listPrint env pr pyo
  | .classPrint => classPrint pr pyo
  | .dictPrint => dictPrint env pr pyo
  | .typePrint => typePrint env pyo
  | .instancePrint => instancePrint pr pyo
  | .longPrint => longPrint env pyo
  | .framePrint => framePrint env pr pyo remoteAddr

/-- Lines 391-403 of `print`: the printer entry for an object whose type has
no entry in `printers`; `none` is the `break` after an emission. -/
def fallbackPrinter (env : Env) (pto : PyTypeObject) (baseObj : PyVarObject)
    (remoteAddr : Addr) : M (Option PyPrinterEntry) := do
  let tn ← readM .string (toAddr pto.tp_name) 1 (env.readString (toAddr pto.tp_name))
  if tn = "NoneType" then
    emitStr "None"
    pure none
  else if pto.tp_flags &&& env.heapTypeFlag ≠ 0 then pure (some heapPrinter)
  else
    emit (.addr remoteAddr)
    emitStr " unprintable-type-"
    emitStr tn
    emitStr "@"
    emit (.addr (toAddr baseObj.ob_type))
    pure none

/-- Lines 413-425 of `print`: `fullSize`, or `none` for the `break` after the
"skip massive object" emission.  The sum is formed in `size_t` and stored in
an `ssize_t`: the low 64 bits of the sum, read as a signed value. -/
def fullSize (pto : PyTypeObject) (baseObj : PyVarObject) : M (Option Int) :=
  if pto.tp_itemsize ≠ 0 then
    if baseObj.ob_size > 65536 ∨ baseObj.ob_size < 0 then do
      emitStr "(skip massive object "
      emit (.num (some baseObj.ob_size))
      emitStr ")"
      pure none
    else
      pure (some (wrapS64 (pto.tp_basicsize + pto.tp_itemsize * baseObj.ob_size)))
  else pure (some (wrapS64 pto.tp_basicsize))

/-- Lines 405-428 of `print`, for a resolved printer entry. -/
def printObject (env : Env) (pr : Addr → M Unit) (printer : PyPrinterEntry)
    (pto : PyTypeObject) (baseObj : PyVarObject) (remoteAddr : Addr) : M Addr := fun s =>
  if printer.dupdetect ∧ remoteAddr ∈ s.visited then
    (do emitStr "(already seen)"; pure 0) s
  else
    (do
      let sz ← fullSize pto baseObj
      match sz with
      | none => pure 0
      | some n =>
        let buf ← readM .body remoteAddr n
          (if n < 0 then none else env.readBuf remoteAddr n.toNat)
        logEvent (.invoke printer.printer remoteAddr)
        callPrinter env pr printer.printer buf pto remoteAddr)
      (if printer.dupdetect then { s with visited := remoteAddr :: s.visited } else s)

/-- One turn of the `while` of `print` (lines 374-428) for a non-zero
`remoteAddr`; the result is the next `remoteAddr`, 0 after a `break`. -/
def printStep (env : Env) (pr : Addr → M Unit) (remoteAddr : Addr) : M Addr := do
  let baseObj ← readM .header remoteAddr 1 (env.readVarObject remoteAddr)
  if baseObj.ob_refcnt = 0 then
    emitStr "(dead object)"
    pure 0
  else
    let found := findPrinter env.syms (toAddr baseObj.ob_type)
    let pto ← typeFor env (toAddr baseObj.ob_type)
    let printer ← (match found with
      | some e => pure (some e)
      | none => fallbackPrinter env pto baseObj remoteAddr)
    match printer with
    | none => pure 0
    | some e => printObject env pr e pto baseObj remoteAddr

/-- The function `PythonPrinter::print` (lines 362-435) around its `while`. -/
def printWith (loop : Addr → M Unit) (remoteAddr : Addr) : M Unit := fun s =>
  if s.depth > 10000 then
    (do emitStr "too deep"; emitStr "\n") s
  else
    (do
      incDepth
      tryCatch (loop remoteAddr) (emitStr "(print failed)")
      decDepth) s

/-- The `while (remoteAddr)` of `print`.  The first argument bounds the calls
of the model still open: each nested `print` and each further turn of the
loop takes one. -/
def printLoop (env : Env) : Nat → Addr → M Unit
  | 0, remoteAddr => if remoteAddr = 0 then pure () else fun _ => none
  | fuel + 1, remoteAddr =>
    if remoteAddr = 0 then pure ()
    else do
      let next ← printStep env (printWith (printLoop env fuel)) remoteAddr
      printLoop env fuel next

/-- The function `PythonPrinter::print`. -/
def print (env : Env) (fuel : Nat) (remoteAddr : Addr) : M Unit :=
  printWith (printLoop env fuel) remoteAddr

/-- The printer as the constructor leaves it (lines 312-318). -/
def initState : PState := { trace := [], depth := 0, visited := [], types := [] }

end Pstack

namespace Pstack

/-! ## A sample target -/

def demoSyms : TypeSyms := ⟨100, 200, 300, 400, 500, 600, 700, 800, 900, 1000, 1100, 1200⟩

def zeroBuf : Buf :=
  { ob_sval := "", ob_fval := 0, ob_ival := 0, list := ⟨0, 0⟩, cl_name := 0, dict := ⟨0, 0, 0⟩,
    type := zeroType, inst := ⟨0, 0⟩, long := ⟨0, fun _ => 0⟩, frame := ⟨0, 0, 0, 0⟩ }

/-- A target holding the dictionary `d = {}; d['self'] = d` at 5000 (the
entry in slot 3 of 8), the string "self" at 7000, a list of 150 elements at
8000 whose items all point to that string, and a line-number table of three
bytes at 10100. -/
def demoEnv : Env :=
  { readVarObject := fun a =>
      if a = 5000 then some ⟨1, 200, 0⟩
      else if a = 7000 then some ⟨1, 100, 4⟩
      else if a = 8000 then some ⟨1, 1100, 150⟩
      else if a = 10100 then some ⟨1, 100, 3⟩
      else none
    readTypeObject := fun a =>
      if a = 200 then some ⟨0, 48, 0, 0, 0⟩
      else if a = 100 then some ⟨0, 37, 1, 0, 0⟩
      else if a = 1100 then some ⟨0, 40, 0, 0, 0⟩
      else none
    readString := fun _ => none
    readBuf := fun a _ =>
      if a = 5000 then some { zeroBuf with dict := ⟨1, 7, 6000⟩ }
      else if a = 7000 then some { zeroBuf with ob_sval := "self" }
      else if a = 8000 then some { zeroBuf with list := ⟨150, 9000⟩ }
      else none
    readPtr := fun a => if 9000 ≤ a ∧ a < 9000 + 8 * 150 then some 7000 else none
    readByte := fun a =>
      if a = 10136 then some 6 else if a = 10137 then some 1 else if a = 10138 then some 200
      else none
    readDictEntry := fun a => if a = 6000 + 24 * 3 then some ⟨7000, 5000⟩ else some ⟨0, 0⟩
    readCode := fun _ => none
    ptrSize := 8
    dictEntrySize := 24
    svalOffset := 36
    tupleItemOffset := 24
    localsplusOffset := 376
    heapTypeFlag := 512
    pyLongShift := 30
    syms := demoSyms
    doargs := true }

/-- A target holding 33 lists nested in one another: the list at the address
`a` (1 to 33) has the single element `a + 1`; nothing is readable at 34. -/
def nestEnv : Env :=
  { demoEnv with
    readVarObject := fun a => if 1 ≤ a ∧ a ≤ 33 then some ⟨1, 1100, 1⟩ else none
    readBuf := fun a _ =>
      if 1 ≤ a ∧ a ≤ 33 then some { zeroBuf with list := ⟨1, 1000 + 8 * a⟩ } else none
    readPtr := fun p => if 1008 ≤ p ∧ p ≤ 1264 then some ((p - 1000) / 8 + 1) else none }

/-- A target holding a chain of 10000 classic classes and one classic
instance: the class at the address `a` (1 to 10000) has the object at `a + 1`
as its `cl_name`, and the object at 10001 is an instance whose `in_class` and
`in_dict` are null. -/
def chainEnv : Env :=
  { demoEnv with
    readVarObject := fun a =>
      if 1 ≤ a ∧ a ≤ 10000 then some ⟨1, 1000, 0⟩
      else if a = 10001 then some ⟨1, 800, 0⟩
      else none
    readTypeObject := fun _ => some ⟨0, 48, 0, 0, 0⟩
    readBuf := fun a _ => some { zeroBuf with cl_name := a + 1 } }

/-- A target holding one object of a heap type at the address 1: its type
descriptor at 2000 (not a registered type) has the name "Foo" at 3000, the
flag of a heap type and `tp_dictoffset = 8`; no pointer of the target can be
read, so the read of the instance-dictionary pointer at 9 fails. -/
def leakEnv : Env :=
  { demoEnv with
    readVarObject := fun a => if a = 1 then some ⟨1, 2000, 0⟩ else none
    readTypeObject := fun a => if a = 2000 then some ⟨3000, 16, 0, 512, 8⟩ else none
    readString := fun a => if a = 3000 then some "Foo" else none
    readBuf := fun a _ => if a = 1 then some zeroBuf else none
    readPtr := fun _ => none }

/-- The value of `depth` after a call that has returned to its caller. -/
def depthOf {α : Type} : Option (Res α) → Option Int
  | some (.ok _ s) => some s.depth
  | _ => none

/-- The trace of the printer when a call has ended, empty when it has not. -/
def traceOf {α : Type} : Option (Res α) → List Event
  | none => []
  | some (.ok _ s) => s.trace
  | some (.thrown s) => s.trace

/-- The sum the spec gives for a long integer: `digit[i] << (shift * i)` over
`i` in `[0, ob_size)`, as a natural number. -/
def longValue (shift : Nat) (digit : Nat → Nat) (n : Nat) : Nat :=
  ∑ i in Finset.range n, digit i * 2 ^ (shift * i)

/-- The type descriptor of the strings of `demoEnv`. -/
def demoSizeType : PyTypeObject := ⟨0, 37, 1, 0, 0⟩

/-! ## Observations on a trace -/

/-- The text sent to `os`, in order. -/
def pieces (t : List Event) : List Piece :=
  t.filterMap (fun e => match e with
    | .emit _ p => some p
    | _ => none)

/-- The calls of per-type printers, in order. -/
def invokes (t : List Event) : List (PrinterKind × Addr) :=
  t.filterMap (fun e => match e with
    | .invoke k a => some (k, a)
    | _ => none)

/-- The cache `types` agrees with the target: a cached descriptor whose
address is readable is the descriptor read there. -/
def TypesOK (env : Env) (s : PState) : Prop :=
  ∀ a t pto, findType s.types a = some t → env.readTypeObject a = some pto → t = pto

/-- The object with header `hdr` and type descriptor `pto` passes the size
check of `print` with `fullSize = n`, and `n` is in the range of `ssize_t`. -/
def Fits (pto : PyTypeObject) (hdr : PyVarObject) (n : Int) : Prop :=
  0 ≤ n ∧ n < 2 ^ 63 ∧ (pto.tp_itemsize ≠ 0 → 0 ≤ hdr.ob_size ∧ hdr.ob_size ≤ 65536) ∧
    n = (if pto.tp_itemsize ≠ 0 then pto.tp_basicsize + pto.tp_itemsize * hdr.ob_size
      else pto.tp_basicsize)

/-- The printer after `typeFor` has run for the address `a` with a readable descriptor. -/
def typeState (a : Addr) (pto : PyTypeObject) (s : PState) : PState :=
  match findType s.types a with
  | some _ => s
  | none =>
    { s with trace := s.trace ++ [.read .typeObject a 1]
             types := (a, pto) :: (a, zeroType) :: s.types }

/-- A target like `demoEnv` (the dictionary `d = {}; d['self'] = d` at 5000,
a table of 8 slots, `ma_mask = 7`) whose entry lies in slot 7, the last slot
of the table. -/
def lastSlotEnv : Env :=
  { demoEnv with
    readDictEntry := fun a => if a = 6000 + 24 * 7 then some ⟨7000, 5000⟩ else some ⟨0, 0⟩ }

/-- A target like `demoEnv` whose dictionary has 64 slots, the entry in
slot 50. -/
def farEnv : Env :=
  { demoEnv with
    readBuf := fun a _ =>
      if a = 5000 then some { zeroBuf with dict := ⟨1, 63, 6000⟩ }
      else if a = 7000 then some { zeroBuf with ob_sval := "self" }
      else none
    readDictEntry := fun a => if a = 6000 + 24 * 50 then some ⟨7000, 5000⟩ else some ⟨0, 0⟩ }

/-- The printer went from `s` to `s2` with the same `depth` and `visited`,
sending the pieces `ps` to `os` and calling the printers `iv`, the cache
`types` still agreeing with the target. -/
structure Leads (env : Env) (s s2 : PState) (ps : List Piece)
    (iv : List (PrinterKind × Addr)) : Prop where
  depth_eq : s2.depth = s.depth
  visited_eq : s2.visited = s.visited
  types_ok : TypesOK env s → TypesOK env s2
  pieces_eq : pieces s2.trace = pieces s.trace ++ ps
  invokes_eq : invokes s2.trace = invokes s.trace ++ iv

/-! ## Invariants of the printer -/

/-- The `dupdetect` flag that the constructor of `PythonPrinter` gives each
printer function (lines 347-359). -/
def dupKind : PrinterKind → Bool
  | .dictPrint => true
  | .framePrint => true
  | .instancePrint => true
  | .listPrint => true
  | .heapPrint => true
  | _ => false

/-- The addresses on which a printer function with the `dupdetect` flag was
called, in order. -/
def dedupInvokes (t : List Event) : List Addr :=
  ((invokes t).filter (fun x => dupKind x.1)).map Prod.snd

/-- Every emission of the trace was made with `depth` at most `B`. -/
def EmitBound (B : Int) (t : List Event) : Prop :=
  ∀ d p, Event.emit d p ∈ t → d ≤ B

/-- No address had a `dupdetect` printer called on it twice, and each address
that had one called is in `visited`. -/
def OncePerAddr (s : PState) : Prop :=
  (dedupInvokes s.trace).Nodup ∧ ∀ a ∈ dedupInvokes s.trace, a ∈ s.visited

/-- What every step of the printer keeps, from a state `s` to a later state
`s2`: `visited` and the trace only grow, and the two invariants of the trace
are kept. -/
structure Grows (s s2 : PState) : Prop where
  visited_sub : ∀ a ∈ s.visited, a ∈ s2.visited
  trace_sub : ∀ e ∈ s.trace, e ∈ s2.trace
  emit_bound : EmitBound 10003 s.trace → EmitBound 10003 s2.trace
  once : OncePerAddr s → OncePerAddr s2

/-- The printer is later than `s0` and its `depth` lies in `[lo, hi]`. -/
def Inv (s0 : PState) (lo hi : Int) (s : PState) : Prop :=
  lo ≤ s.depth ∧ s.depth ≤ hi ∧ Grows s0 s

/-- The number of 64-bit addresses not in `visited`. -/
def unvisited (s : PState) : Nat :=
  ((Finset.range (2 ^ 64)).filter (fun a => a ∉ s.visited)).card

/-- A budget that is enough for the `while` of `print` started in `s`. -/
def loopNeed (s : PState) : Nat := (10002 - s.depth).toNat + unvisited s + 1

/-- A budget that is enough for a call of `print` in `s`. -/
def need (s : PState) : Nat :=
  if s.depth > 10000 then 0 else (10001 - s.depth).toNat + unvisited s + 1

/-- The weakest precondition of `m` in the state `s`: `Q` holds after a normal
end, `E` after an exception, and `N` holds if the budget ran out. -/
def wp {α : Type} (N : Prop) (m : M α) (Q : α → PState → Prop) (E : PState → Prop)
    (s : PState) : Prop :=
  match m s with
  | none => N
  | some (.ok a s2) => Q a s2
  | some (.thrown s2) => E s2

/-- What is proved of `print` as a callback with budget `g`: it never throws,
it ends when `g` is enough, `depth` does not decrease and ends at most at
the larger of its entry value and 10001, and the invariants are kept. -/
def CallSpec (g : Nat) (pr : Addr → M Unit) : Prop :=
  ∀ (a : Addr) (s : PState), a < 2 ^ 64 → s.depth ≤ 10003 →
    wp (g < need s) (pr a)
      (fun _ s2 => s.depth ≤ s2.depth ∧ (s2.depth ≤ s.depth ∨ s2.depth ≤ 10001) ∧ Grows s s2)
      (fun _ => False) s

/-- What is proved of a per-type printer entered with `depth` at least `x`
and at most 10001: on a normal end `depth` is in `[x, 10001]`, on an
exception in `[x, 10002]`, and only `framePrint` returns a continuation. -/
def PrinterOK (N : Prop) (s0 : PState) (x : Int) (isFrame : Prop) (m : M Addr)
    (s : PState) : Prop :=
  wp N m (fun r s2 => Inv s0 x 10001 s2 ∧ (r ≠ 0 → isFrame ∧ r < 2 ^ 64))
    (fun s2 => Inv s0 x 10002 s2) s

end Pstack

namespace Pstack

/-! ## The computation monad -/

theorem bind_apply {α β : Type} (m : M α) (f : α → M β) (s : PState) :
    (m >>= f) s =
      match m s with
      | none => none
      | some (.thrown s') => some (.thrown s')
      | some (.ok a s') => f a s' := rfl

theorem pure_apply {α : Type} (a : α) (s : PState) : (pure a : M α) s = some (.ok a s) := rfl

theorem bind_ok {α β : Type} {m : M α} {f : α → M β} {s s' : PState} {a : α}
    (h : m s = some (.ok a s')) : (m >>= f) s = f a s' := by
  rw [bind_apply, h]

theorem bind_thrown {α β : Type} {m : M α} {f : α → M β} {s s' : PState}
    (h : m s = some (.thrown s')) : (m >>= f) s = some (.thrown s') := by
  rw [bind_apply, h]

theorem bind_none {α β : Type} {m : M α} {f : α → M β} {s : PState}
    (h : m s = none) : (m >>= f) s = none := by
  rw [bind_apply, h]

theorem emit_apply (p : Piece) (s : PState) :
    emit p s = some (.ok () { s with trace := s.trace ++ [.emit s.depth p] }) := rfl

theorem emitStr_apply (t : String) (s : PState) :
    emitStr t s = some (.ok () { s with trace := s.trace ++ [.emit s.depth (.str t)] }) := rfl

theorem logEvent_apply (e : Event) (s : PState) :
    logEvent e s = some (.ok () { s with trace := s.trace ++ [e] }) := rfl

theorem incDepth_apply (s : PState) :
    incDepth s = some (.ok () { s with depth := s.depth + 1 }) := rfl

theorem decDepth_apply (s : PState) :
    decDepth s = some (.ok () { s with depth := s.depth - 1 }) := rfl

theorem throwM_apply {α : Type} (s : PState) : (throwM : M α) s = some (.thrown s) := rfl

theorem readM_some {α : Type} (k : ReadKind) (a : Addr) (count : Int) (v : α) (s : PState) :
    readM k a count (some v) s = some (.ok v { s with trace := s.trace ++ [.read k a count] }) := rfl

theorem readM_none {α : Type} (k : ReadKind) (a : Addr) (count : Int) (s : PState) :
    readM k a count (none : Option α) s =
      some (.thrown { s with trace := s.trace ++ [.read k a count] }) := rfl

theorem wrapS64_eq {x : Int} (h0 : -2 ^ 63 ≤ x) (h1 : x < 2 ^ 63) : wrapS64 x = x := by
  unfold wrapS64
  rw [Int.emod_eq_of_lt (by omega) (by omega)]
  omega

end Pstack

namespace Pstack

/-! ## Thread enumeration -/

theorem foldl_lwpStep (getRegs : Int → Nat) (lwps : List Int) (acc : Enum) :
    lwps.foldl (lwpStep getRegs) acc =
      { threadStacks := acc.threadStacks ++
          (lwps.filter (fun l => l ∉ acc.tracedLwps)).map (fun l => { ti_lid := l, regs := getRegs l })
        tracedLwps := acc.tracedLwps } := by
  induction lwps generalizing acc with
  | nil => simp
  | cons l rest ih =>
    rw [List.foldl_cons, ih]
    by_cases h : l ∈ acc.tracedLwps
    · simp [lwpStep, h]
    · simp [lwpStep, h]

theorem foldl_listThreadsCallback_stacks (handles : List ThrHandle) (acc : Enum) :
    (handles.foldl listThreadsCallback acc).threadStacks =
      acc.threadStacks ++ (handles.filter (fun h => h.gregsOk)).map
        (fun h => { ti_lid := h.ti_lid, regs := h.regs }) := by
  induction handles generalizing acc with
  | nil => simp
  | cons h rest ih =>
    rw [List.foldl_cons, ih]
    by_cases hk : h.gregsOk
    · simp [listThreadsCallback, hk]
    · simp [listThreadsCallback, hk]

theorem foldl_listThreadsCallback_traced (handles : List ThrHandle) (acc : Enum) (x : Int) :
    x ∈ (handles.foldl listThreadsCallback acc).tracedLwps ↔
      x ∈ acc.tracedLwps ∨ x ∈ (handles.filter (fun h => h.gregsOk)).map (fun h => h.ti_lid) := by
  induction handles generalizing acc with
  | nil => simp
  | cons h rest ih =>
    rw [List.foldl_cons, ih]
    by_cases hk : h.gregsOk
    · simp [listThreadsCallback, hk]
      tauto
    · simp [listThreadsCallback, hk]

theorem lidCount_eq_count (lid : Int) (l : List ThreadStack) :
    lidCount lid l = (l.map (fun t => t.ti_lid)).count lid := by
  induction l with
  | nil => simp [lidCount]
  | cons t rest ih =>
    simp only [lidCount] at ih ⊢
    by_cases h : t.ti_lid = lid
    · simp [List.filter_cons, h, ih]
    · simp [List.filter_cons, h, ih, List.count_cons]

/-- The ids of the thread list `pstack()` builds: those of the thread-database
handles whose registers were read, then the kernel ids not among them. -/
theorem pstack_lids (getRegs : Int → Nat) (handles : List ThrHandle) (lwps : List Int) :
    (pstack getRegs handles lwps).map (fun t => t.ti_lid) =
      (handles.filter (fun h => h.gregsOk)).map (fun h => h.ti_lid) ++
        lwps.filter (fun l => l ∉ (handles.filter (fun h => h.gregsOk)).map (fun h => h.ti_lid)) := by
  unfold pstack
  rw [foldl_lwpStep, foldl_listThreadsCallback_stacks]
  simp only [List.nil_append, List.map_append, List.map_map]
  congr 1
  rw [List.map_congr_left (g := id) (by intro a _; rfl), List.map_id]
  apply List.filter_congr
  intro x _
  have := foldl_listThreadsCallback_traced handles { threadStacks := [], tracedLwps := [] } x
  simp only [List.not_mem_nil, false_or] at this
  simp only [this]

/-- C1 (as stated, refuted): when the thread-database iteration yields two
handles that report the same light-weight-thread id 7, and 7 is a key of
`proc.lwps`, the list built by `pstack()` holds two entries with id 7. -/
theorem pstack_lid_twice :
    (7 : Int) ∈ [(7 : Int)] ∧
      lidCount 7 (pstack (fun _ => 0) [⟨true, 1, 7⟩, ⟨true, 2, 7⟩] [7]) ≠ 1 := by
  decide

/-- C1 (amended): when the handles whose registers could be read report
pairwise different light-weight-thread ids, every key of `proc.lwps` (a map,
so the keys are pairwise different) is the `ti_lid` of exactly one entry of
the list built by `pstack()`. -/
theorem pstack_lwp_exactly_once (getRegs : Int → Nat) (handles : List ThrHandle)
    (lwps : List Int) (hmap : lwps.Nodup)
    (hdb : ((handles.filter (fun h => h.gregsOk)).map (fun h => h.ti_lid)).Nodup)
    (lid : Int) (hl : lid ∈ lwps) :
    lidCount lid (pstack getRegs handles lwps) = 1 := by
  rw [lidCount_eq_count, pstack_lids, List.count_append]
  by_cases h : lid ∈ (handles.filter (fun h => h.gregsOk)).map (fun h => h.ti_lid)
  · rw [List.count_eq_one_of_mem hdb h, List.count_eq_zero_of_not_mem]
    intro hmem
    have := (List.mem_filter.mp hmem).2
    simp only [decide_eq_true_eq] at this
    exact this h
  · rw [List.count_eq_zero_of_not_mem h, List.count_eq_one_of_mem (hmap.filter _)]
    exact List.mem_filter.mpr ⟨hl, by simpa using h⟩

theorem pstack_lwp_exactly_once_witness :
    lidCount 8 (pstack (fun _ => 0) [⟨true, 1, 7⟩, ⟨false, 2, 7⟩, ⟨true, 3, 8⟩] [7, 8, 9]) = 1 :=
  pstack_lwp_exactly_once (fun _ => 0) [⟨true, 1, 7⟩, ⟨false, 2, 7⟩, ⟨true, 3, 8⟩] [7, 8, 9]
    (by decide) (by decide) 8 (by decide)

end Pstack

namespace Pstack

/-! ## The size check of `print` -/

/-- C5: for an object that reaches the size check of `print` (its header was
read, a printer entry was resolved and the duplicate check did not end the
turn; `s0` is the printer once the address has been marked visited):
when `tp_itemsize` is not zero and `ob_size` is negative or above 65536,
`print` emits "(skip massive object <ob_size>)" and ends the turn with no read
of the object and no call of its printer; otherwise, `n` being
`tp_basicsize + tp_itemsize * ob_size` (`tp_basicsize` when `tp_itemsize` is
zero) and lying in the range of `ssize_t`, it reads exactly `n` bytes at the
object and, when that read succeeds, calls the printer on them. -/
theorem printObject_size_check (env : Env) (pr : Addr → M Unit) (printer : PyPrinterEntry)
    (pto : PyTypeObject) (baseObj : PyVarObject) (remoteAddr : Addr) (s s0 : PState)
    (hnew : ¬ (printer.dupdetect = true ∧ remoteAddr ∈ s.visited))
    (hs0 : s0 = if printer.dupdetect then { s with visited := remoteAddr :: s.visited } else s) :
    (pto.tp_itemsize ≠ 0 → (baseObj.ob_size < 0 ∨ baseObj.ob_size > 65536) →
      printObject env pr printer pto baseObj remoteAddr s =
        some (.ok 0 { s0 with trace := s0.trace ++
          [.emit s0.depth (.str "(skip massive object "),
           .emit s0.depth (.num (some baseObj.ob_size)),
           .emit s0.depth (.str ")")] })) ∧
    (∀ n : Int, 0 ≤ n → n < 2 ^ 63 →
      (pto.tp_itemsize ≠ 0 → 0 ≤ baseObj.ob_size ∧ baseObj.ob_size ≤ 65536) →
      n = (if pto.tp_itemsize ≠ 0 then pto.tp_basicsize + pto.tp_itemsize * baseObj.ob_size
        else pto.tp_basicsize) →
      printObject env pr printer pto baseObj remoteAddr s =
        match env.readBuf remoteAddr n.toNat with
        | none => some (.thrown { s0 with trace := s0.trace ++ [.read .body remoteAddr n] })
        | some buf =>
          callPrinter env pr printer.printer buf pto remoteAddr
            { s0 with trace := s0.trace ++
              [.read .body remoteAddr n, .invoke printer.printer remoteAddr] }) := by
  subst hs0
  constructor
  · intro hitem hsize
    have hsize' : baseObj.ob_size > 65536 ∨ baseObj.ob_size < 0 := hsize.symm
    unfold printObject
    rw [if_neg (by simpa using hnew)]
    simp only [fullSize, if_pos hitem, if_pos hsize', bind_apply, emitStr_apply, emit_apply,
      pure_apply, List.append_assoc, List.singleton_append]
    rfl
  · intro n hn0 hn1 hrange hn
    have hfull : fullSize pto baseObj = pure (some n) := by
      unfold fullSize
      by_cases hitem : pto.tp_itemsize ≠ 0
      · have hr := hrange hitem
        rw [if_pos hitem] at hn ⊢
        rw [if_neg (by omega), ← hn, wrapS64_eq (by omega) hn1]
      · rw [if_neg hitem] at hn ⊢
        rw [← hn, wrapS64_eq (by omega) hn1]
    unfold printObject
    rw [if_neg (by simpa using hnew)]
    simp only [hfull, bind_apply, pure_apply, if_neg (not_lt.mpr hn0)]
    cases hbuf : env.readBuf remoteAddr n.toNat with
    | none => simp only [readM_none]
    | some buf =>
      simp only [readM_some, logEvent_apply, List.append_assoc, List.singleton_append]

theorem printObject_size_check_witness :
    (demoSizeType.tp_itemsize ≠ 0 → ((70000 : Int) < 0 ∨ (70000 : Int) > 65536) →
      printObject demoEnv (print demoEnv 5) ⟨.stringPrint, false⟩ demoSizeType ⟨1, 100, 70000⟩
          7000 initState =
        some (.ok 0 { initState with trace := initState.trace ++
          [.emit initState.depth (.str "(skip massive object "),
           .emit initState.depth (.num (some 70000)),
           .emit initState.depth (.str ")")] })) ∧
    (∀ n : Int, 0 ≤ n → n < 2 ^ 63 →
      (demoSizeType.tp_itemsize ≠ 0 → (0 : Int) ≤ 70000 ∧ (70000 : Int) ≤ 65536) →
      n = (if demoSizeType.tp_itemsize ≠ 0 then
          demoSizeType.tp_basicsize + demoSizeType.tp_itemsize * 70000
        else demoSizeType.tp_basicsize) →
      printObject demoEnv (print demoEnv 5) ⟨.stringPrint, false⟩ demoSizeType ⟨1, 100, 70000⟩
          7000 initState =
        match demoEnv.readBuf 7000 n.toNat with
        | none => some (.thrown { initState with trace := initState.trace ++
            [.read .body 7000 n] })
        | some buf =>
          callPrinter demoEnv (print demoEnv 5) PrinterKind.stringPrint buf demoSizeType 7000
            { initState with trace := initState.trace ++
              [.read .body 7000 n, .invoke PrinterKind.stringPrint 7000] }) :=
  printObject_size_check demoEnv (print demoEnv 5) ⟨.stringPrint, false⟩ demoSizeType
    ⟨1, 100, 70000⟩ 7000 initState initState (by decide) rfl

end Pstack

namespace Pstack

/-! ## The line-number decoder -/

/-- C6: when the two reads of the line-number table succeed, the table is not
empty and its first byte is greater than `f_lasti`, `getLine` returns
`co_firstlineno`, whatever the other bytes of the table are. -/
theorem getLine_first_entry_beyond (env : Env) (code : PyCodeObject) (frame : PyFrameObject)
    (s : PState) (lnotab : PyVarObject) (b : Nat) (rest : List Nat)
    (hhdr : env.readVarObject (toAddr code.co_lnotab) = some lnotab)
    (hdata : readCount env.readByte 1 (toAddr (toAddr code.co_lnotab + env.svalOffset))
      lnotab.ob_size = some (b :: rest))
    (hb : (b : Int) > frame.f_lasti) :
    getLine env code frame s = some (.ok (some code.co_firstlineno)
      { s with trace := s.trace ++
          [.read .header (toAddr code.co_lnotab) 1,
           .read .bytes (toAddr (toAddr code.co_lnotab + env.svalOffset)) lnotab.ob_size] }) := by
  unfold getLine
  rw [hhdr, bind_ok (readM_some _ _ _ _ _), hdata, bind_ok (readM_some _ _ _ _ _), pure_apply]
  have hb' : (0 : Int) + b > frame.f_lasti := by omega
  cases rest <;> simp only [lnotabWalk, if_pos hb', List.append_assoc, List.singleton_append]

theorem getLine_first_entry_beyond_witness :
    getLine demoEnv ⟨10100, 0, 0, 0, 0, 0, 42, 0⟩ ⟨10000, 0, 0, 3⟩ initState =
      some (.ok (some 42)
        { initState with trace := initState.trace ++
            [.read .header (toAddr 10100) 1,
             .read .bytes (toAddr (toAddr 10100 + demoEnv.svalOffset)) 3] }) :=
  getLine_first_entry_beyond demoEnv ⟨10100, 0, 0, 0, 0, 0, 42, 0⟩ ⟨10000, 0, 0, 3⟩ initState
    ⟨1, 100, 3⟩ 6 [1, 200] (by decide) (by decide) (by decide)

end Pstack

namespace Pstack

/-! ## The list printer -/

theorem readArray_eq (rd : Addr → Option Nat) (size : Nat) (a : Addr) (f : Nat → Nat) (n : Nat)
    (h : ∀ i, i < n → rd (toAddr (a + size * i)) = some (f i)) :
    readArray rd size a n = some ((List.range n).map f) := by
  induction n with
  | zero => rfl
  | succ n ih =>
    have h1 := ih (fun i hi => h i (Nat.lt_succ_of_lt hi))
    have h2 := h n (Nat.lt_succ_self n)
    simp only [readArray, h1]
    push_cast at h2 ⊢
    rw [h2, List.range_succ, List.map_append]
    rfl

/-- C7: for a list object with `ob_size > 100` (then `k = 100`) or with
`0 <= ob_size <= 100` (then `k = ob_size`), whose first `k` element pointers
`ob_item[0..k)` are readable with the values `elems 0 .. elems (k-1)`,
`listPrint` makes one read of exactly `k` pointers at `ob_item` and then, in
index order, prints exactly these `k` elements, each on a line of its own at
the increased depth; no element of index `k` or more is read or printed. -/
theorem listPrint_first_hundred (env : Env) (pr : Addr → M Unit) (pyo : Buf)
    (elems : Nat → Nat) (k : Nat)
    (hk : (pyo.list.ob_size > 100 ∧ k = 100) ∨
      (0 ≤ pyo.list.ob_size ∧ pyo.list.ob_size ≤ 100 ∧ (k : Int) = pyo.list.ob_size))
    (hread : ∀ i, i < k →
      env.readPtr (toAddr (toAddr pyo.list.ob_item + env.ptrSize * i)) = some (elems i)) :
    listPrint env pr pyo = (do
      emitStr "list: \n"
      logEvent (.read .ptrs (toAddr pyo.list.ob_item) k)
      incDepth
      listLoop pr ((List.range k).map elems)
      decDepth
      emitStr "\n"
      pure 0) := by
  have hmin : min pyo.list.ob_size 100 = (k : Int) := by
    rcases hk with ⟨h, rfl⟩ | ⟨_, h, hk⟩
    · rw [min_eq_right (le_of_lt h)]; rfl
    · rw [min_eq_left h, hk]
  have hrc : readCount env.readPtr env.ptrSize (toAddr pyo.list.ob_item) (k : Int) =
      some ((List.range k).map elems) := by
    unfold readCount
    rw [if_neg (by omega), Int.toNat_ofNat]
    exact readArray_eq _ _ _ _ _ hread
  funext s
  unfold listPrint
  simp only [hmin, hrc, readM]
  rfl

theorem listPrint_first_hundred_witness :
    listPrint demoEnv (print demoEnv 5) { zeroBuf with list := ⟨150, 9000⟩ } = (do
      emitStr "list: \n"
      logEvent (.read .ptrs (toAddr (9000 : Nat)) (100 : Nat))
      incDepth
      listLoop (print demoEnv 5) ((List.range 100).map (fun _ => 7000))
      decDepth
      emitStr "\n"
      pure 0) :=
  listPrint_first_hundred demoEnv (print demoEnv 5) { zeroBuf with list := ⟨150, 9000⟩ }
    (fun _ => 7000) 100 (Or.inl (by decide)) (by decide!)

end Pstack

namespace Pstack

/-! ## Running `print` on known objects -/

theorem bind_assoc_M {α β γ : Type} (m : M α) (f : α → M β) (g : β → M γ) :
    (m >>= f) >>= g = m >>= (fun a => f a >>= g) := by
  funext s
  simp only [bind_apply]
  cases m s with
  | none => rfl
  | some r => cases r <;> rfl

theorem pure_bind_M {α β : Type} (a : α) (f : α → M β) : (pure a : M α) >>= f = f a := by
  funext s
  rfl

theorem findType_cons (a b : Addr) (t : PyTypeObject) (l : List (Addr × PyTypeObject)) :
    findType ((a, t) :: l) b = if a = b then some t else findType l b := by
  unfold findType
  by_cases h : a = b <;> simp [List.find?, h]

theorem pieces_append (t u : List Event) : pieces (t ++ u) = pieces t ++ pieces u := by
  simp [pieces, List.filterMap_append]

theorem invokes_append (t u : List Event) : invokes (t ++ u) = invokes t ++ invokes u := by
  simp [invokes, List.filterMap_append]

theorem typeFor_known (env : Env) (a : Addr) (pto : PyTypeObject) (s : PState)
    (hok : TypesOK env s) (hread : env.readTypeObject a = some pto) :
    typeFor env a s = some (.ok pto (typeState a pto s)) := by
  unfold typeFor typeState
  cases h : findType s.types a with
  | some t =>
    have := hok a t pto h hread
    subst this
    rfl
  | none =>
    simp only [hread, bind_apply, setType, readM_some, pure_apply]

theorem typeState_depth (a : Addr) (pto : PyTypeObject) (s : PState) :
    (typeState a pto s).depth = s.depth := by
  unfold typeState
  cases findType s.types a <;> rfl

theorem typeState_visited (a : Addr) (pto : PyTypeObject) (s : PState) :
    (typeState a pto s).visited = s.visited := by
  unfold typeState
  cases findType s.types a <;> rfl

theorem typeState_pieces (a : Addr) (pto : PyTypeObject) (s : PState) :
    pieces (typeState a pto s).trace = pieces s.trace := by
  unfold typeState
  cases findType s.types a with
  | some t => rfl
  | none => simp [pieces_append, pieces]

theorem typeState_invokes (a : Addr) (pto : PyTypeObject) (s : PState) :
    invokes (typeState a pto s).trace = invokes s.trace := by
  unfold typeState
  cases findType s.types a with
  | some t => rfl
  | none => simp [invokes_append, invokes]

theorem typeState_ok (env : Env) (a : Addr) (pto : PyTypeObject) (s : PState)
    (hok : TypesOK env s) (hread : env.readTypeObject a = some pto) :
    TypesOK env (typeState a pto s) := by
  unfold typeState
  cases h : findType s.types a with
  | some t => exact hok
  | none =>
    intro b t p hb hp
    simp only [findType_cons] at hb
    by_cases hab : a = b
    · subst hab
      rw [if_pos rfl] at hb
      rw [hread] at hp
      cases hb
      cases hp
      rfl
    · rw [if_neg hab, if_neg hab] at hb
      exact hok b t p hb hp

theorem fullSize_fits (pto : PyTypeObject) (hdr : PyVarObject) (n : Int) (h : Fits pto hdr n) :
    fullSize pto hdr = pure (some n) := by
  obtain ⟨h0, h1, hr, hn⟩ := h
  unfold fullSize
  by_cases hitem : pto.tp_itemsize ≠ 0
  · have := hr hitem
    rw [if_pos hitem] at hn ⊢
    rw [if_neg (by omega), ← hn, wrapS64_eq (by omega) h1]
  · rw [if_neg hitem] at hn ⊢
    rw [← hn, wrapS64_eq (by omega) h1]

theorem printLoop_zero (env : Env) (fuel : Nat) : printLoop env fuel 0 = pure () := by
  cases fuel <;> simp [printLoop]

theorem printLoop_succ (env : Env) (fuel : Nat) (a : Addr) (h : a ≠ 0) :
    printLoop env (fuel + 1) a =
      printStep env (printWith (printLoop env fuel)) a >>= printLoop env fuel := by
  simp [printLoop, h]

end Pstack

namespace Pstack

theorem Leads.chain {env : Env} {s s1 s2 : PState} {ps1 ps2 : List Piece}
    {iv1 iv2 : List (PrinterKind × Addr)} (h1 : Leads env s s1 ps1 iv1)
    (h2 : Leads env s1 s2 ps2 iv2) : Leads env s s2 (ps1 ++ ps2) (iv1 ++ iv2) where
  depth_eq := h2.depth_eq.trans h1.depth_eq
  visited_eq := h2.visited_eq.trans h1.visited_eq
  types_ok := fun h => h2.types_ok (h1.types_ok h)
  pieces_eq := by rw [h2.pieces_eq, h1.pieces_eq, List.append_assoc]
  invokes_eq := by rw [h2.invokes_eq, h1.invokes_eq, List.append_assoc]

theorem printStep_registered (env : Env) (pr : Addr → M Unit) (a : Addr) (s : PState)
    (hdr : PyVarObject) (e : PyPrinterEntry) (pto : PyTypeObject)
    (hread : env.readVarObject a = some hdr) (href : hdr.ob_refcnt ≠ 0)
    (hfind : findPrinter env.syms (toAddr hdr.ob_type) = some e)
    (htype : env.readTypeObject (toAddr hdr.ob_type) = some pto) (hok : TypesOK env s) :
    printStep env pr a s = printObject env pr e pto hdr a
      (typeState (toAddr hdr.ob_type) pto { s with trace := s.trace ++ [.read .header a 1] }) := by
  unfold printStep
  rw [hread, bind_ok (readM_some _ _ _ _ _)]
  simp only [if_neg href, hfind]
  have hok2 : TypesOK env { s with trace := s.trace ++ [.read .header a 1] } := hok
  rw [bind_ok (typeFor_known env _ pto _ hok2 htype)]
  rfl

theorem printWith_ok (loop : Addr → M Unit) (a : Addr) (s s2 : PState)
    (hdepth : s.depth ≤ 10000)
    (h : loop a { s with depth := s.depth + 1 } = some (.ok () s2)) :
    printWith loop a s = some (.ok () { s2 with depth := s2.depth - 1 }) := by
  unfold printWith
  rw [if_neg (by omega), bind_ok (incDepth_apply _)]
  simp only [bind_apply, tryCatch, h, decDepth_apply]

theorem printLoop_one_turn (env : Env) (fuel : Nat) (a : Addr) (s s2 : PState) (ha : a ≠ 0)
    (h : printStep env (printWith (printLoop env fuel)) a s = some (.ok 0 s2)) :
    printLoop env (fuel + 1) a s = some (.ok () s2) := by
  rw [printLoop_succ env fuel a ha, bind_ok h, printLoop_zero]
  rfl

/-- A nested `print` of a string object: the text between quotes. -/
theorem print_string (env : Env) (g : Nat) (k : Addr) (s : PState) (hdr : PyVarObject)
    (pto : PyTypeObject) (n : Int) (buf : Buf) (hk : k ≠ 0) (hdepth : s.depth ≤ 10000)
    (hread : env.readVarObject k = some hdr) (href : hdr.ob_refcnt ≠ 0)
    (hfind : findPrinter env.syms (toAddr hdr.ob_type) = some ⟨.stringPrint, false⟩)
    (htype : env.readTypeObject (toAddr hdr.ob_type) = some pto) (hok : TypesOK env s)
    (hfit : Fits pto hdr n) (hbuf : env.readBuf k n.toNat = some buf) :
    ∃ s2, printWith (printLoop env (g + 1)) k s = some (.ok () s2) ∧
      Leads env s s2 [.str "\"", .str buf.ob_sval, .str "\""] [(.stringPrint, k)] := by
  have hstep := printStep_registered env (printWith (printLoop env g)) k
    { s with depth := s.depth + 1 } hdr _ pto hread href hfind htype hok
  have hobj : printStep env (printWith (printLoop env g)) k { s with depth := s.depth + 1 } =
      some (.ok 0
        { typeState (toAddr hdr.ob_type) pto
            { s with depth := s.depth + 1, trace := s.trace ++ [.read .header k 1] } with
          trace := (typeState (toAddr hdr.ob_type) pto
              { s with depth := s.depth + 1, trace := s.trace ++ [.read .header k 1] }).trace ++
            [.read .body k n, .invoke .stringPrint k, .emit (s.depth + 1) (.str "\""),
             .emit (s.depth + 1) (.str buf.ob_sval), .emit (s.depth + 1) (.str "\"")] }) := by
    rw [hstep]
    unfold printObject
    rw [if_neg (by simp)]
    simp only [fullSize_fits pto hdr n hfit, bind_apply, pure_apply, if_neg (not_lt.mpr hfit.1),
      hbuf, readM_some, logEvent_apply, callPrinter, stringPrint, emitStr_apply]
    simp [typeState_depth]
  refine ⟨_, printWith_ok _ k s _ hdepth (printLoop_one_turn env g k _ _ hk hobj), ?_⟩
  constructor
  · simp [typeState_depth]
  · simp [typeState_visited]
  · intro h
    exact typeState_ok env _ pto _ h htype
  · simp only [pieces_append, typeState_pieces]
    simp [pieces]
  · simp only [invokes_append, typeState_invokes]
    simp [invokes]

/-- A nested `print` of an object already visited whose printer entry has the
`dupdetect` flag: "(already seen)", with no read of the body and no call. -/
theorem print_seen (env : Env) (g : Nat) (a : Addr) (s : PState) (hdr : PyVarObject)
    (e : PyPrinterEntry) (pto : PyTypeObject) (ha : a ≠ 0) (hdepth : s.depth ≤ 10000)
    (hread : env.readVarObject a = some hdr) (href : hdr.ob_refcnt ≠ 0)
    (hfind : findPrinter env.syms (toAddr hdr.ob_type) = some e) (hdup : e.dupdetect = true)
    (htype : env.readTypeObject (toAddr hdr.ob_type) = some pto) (hok : TypesOK env s)
    (hseen : a ∈ s.visited) :
    ∃ s2, printWith (printLoop env (g + 1)) a s = some (.ok () s2) ∧
      Leads env s s2 [.str "(already seen)"] [] ∧
      s2.trace = (typeState (toAddr hdr.ob_type) pto
        { s with depth := s.depth + 1, trace := s.trace ++ [.read .header a 1] }).trace ++
          [.emit (s.depth + 1) (.str "(already seen)")] := by
  have hstep := printStep_registered env (printWith (printLoop env g)) a
    { s with depth := s.depth + 1 } hdr _ pto hread href hfind htype hok
  have hobj : printStep env (printWith (printLoop env g)) a { s with depth := s.depth + 1 } =
      some (.ok 0
        { typeState (toAddr hdr.ob_type) pto
            { s with depth := s.depth + 1, trace := s.trace ++ [.read .header a 1] } with
          trace := (typeState (toAddr hdr.ob_type) pto
              { s with depth := s.depth + 1, trace := s.trace ++ [.read .header a 1] }).trace ++
            [.emit (s.depth + 1) (.str "(already seen)")] }) := by
    rw [hstep]
    unfold printObject
    rw [if_pos (by simp [hdup, typeState_visited, hseen])]
    simp only [bind_apply, pure_apply, emitStr_apply]
    simp [typeState_depth]
  refine ⟨_, printWith_ok _ a s _ hdepth (printLoop_one_turn env g a _ _ ha hobj), ?_, ?_⟩
  · constructor
    · simp [typeState_depth]
    · simp [typeState_visited]
    · intro h
      exact typeState_ok env _ pto _ h htype
    · simp only [pieces_append, typeState_pieces]
      simp [pieces]
    · simp only [invokes_append, typeState_invokes]
      simp [invokes]
  · simp [typeState_depth]

end Pstack

namespace Pstack

/-! ## The dictionary printer -/

theorem Leads.stay (env : Env) (s : PState) : Leads env s s [] [] where
  depth_eq := rfl
  visited_eq := rfl
  types_ok := id
  pieces_eq := by simp
  invokes_eq := by simp

theorem Leads.emitted (env : Env) (s : PState) (d : Int) (p : Piece) :
    Leads env s { s with trace := s.trace ++ [.emit d p] } [p] [] where
  depth_eq := rfl
  visited_eq := rfl
  types_ok := id
  pieces_eq := by simp [pieces_append, pieces]
  invokes_eq := by simp [invokes_append, invokes]

theorem Leads.readDone (env : Env) (s : PState) (k : ReadKind) (a : Addr) (c : Int) :
    Leads env s { s with trace := s.trace ++ [.read k a c] } [] [] where
  depth_eq := rfl
  visited_eq := rfl
  types_ok := id
  pieces_eq := by simp [pieces_append, pieces]
  invokes_eq := by simp [invokes_append, invokes]

theorem dictLoop_succ (env : Env) (pr : Addr → M Unit) (pdo : PyDictObject) (n i : Nat) :
    dictLoop env pr pdo (n + 1) i =
      dictSlot env pr pdo i >>= fun _ => dictLoop env pr pdo n (i + 1) := rfl

theorem dictLoop_add (env : Env) (pr : Addr → M Unit) (pdo : PyDictObject) (a b : Nat) :
    ∀ i, dictLoop env pr pdo (a + b) i =
      dictLoop env pr pdo a i >>= fun _ => dictLoop env pr pdo b (i + a) := by
  induction a with
  | zero =>
    intro i
    simp only [Nat.zero_add, Nat.add_zero]
    rfl
  | succ a ih =>
    intro i
    rw [show a + 1 + b = (a + b) + 1 by omega, dictLoop_succ, dictLoop_succ, ih (i + 1),
      bind_assoc_M]
    simp only [show i + 1 + a = i + (a + 1) by omega]

theorem dictLoop_empty (env : Env) (pr : Addr → M Unit) (pdo : PyDictObject) (n : Nat) :
    ∀ (i : Nat) (s : PState),
      (∀ j, j < n → ∃ e, env.readDictEntry
        (toAddr (pdo.ma_table + env.dictEntrySize * (i + j : Nat))) = some e ∧ e.me_value = 0) →
      ∃ s2, dictLoop env pr pdo n i s = some (.ok () s2) ∧ Leads env s s2 [] [] := by
  induction n with
  | zero =>
    intro i s _
    exact ⟨s, rfl, Leads.stay env s⟩
  | succ n ih =>
    intro i s h
    obtain ⟨e, he, hv⟩ := h 0 (Nat.succ_pos n)
    simp only [Nat.add_zero] at he
    obtain ⟨s2, h2, l2⟩ := ih (i + 1) { s with trace := s.trace ++
        [.read .dictEntry (toAddr (pdo.ma_table + env.dictEntrySize * i)) 1] } (by
      intro j hj
      have := h (j + 1) (Nat.succ_lt_succ hj)
      rwa [show i + (j + 1) = i + 1 + j by omega] at this)
    refine ⟨s2, ?_, (Leads.readDone env s _ _ _).chain l2⟩
    rw [dictLoop_succ]
    have hslot : dictSlot env pr pdo i s = some (.ok () { s with trace := s.trace ++
        [.read .dictEntry (toAddr (pdo.ma_table + env.dictEntrySize * i)) 1] }) := by
      unfold dictSlot
      rw [he, bind_ok (readM_some _ _ _ _ _), if_pos hv]
      rfl
    rw [bind_ok hslot, h2]

end Pstack

namespace Pstack

theorem toAddr_zero : toAddr ((0 : Nat) : Int) = 0 := by decide

/-- The loop of `dictPrint` over a table whose only live entry, in the slot
`slot`, has a string as key and a visited object with a `dupdetect` printer as
value. -/
theorem dictLoop_one_entry (env : Env) (g : Nat) (pdo : PyDictObject) (n slot : Nat)
    (key value : Nat) (s : PState) (hdrK hdrV : PyVarObject) (ptoK ptoV : PyTypeObject)
    (eV : PyPrinterEntry) (nK : Int) (bufK : Buf)
    (hslot : slot < n) (hdepth : s.depth ≤ 10000) (hok : TypesOK env s)
    (hentry : env.readDictEntry (toAddr (pdo.ma_table + env.dictEntrySize * slot)) =
      some ⟨key, value⟩)
    (hothers : ∀ i, i < n → i ≠ slot → ∃ e, env.readDictEntry
      (toAddr (pdo.ma_table + env.dictEntrySize * i)) = some e ∧ e.me_value = 0)
    (hk : toAddr key ≠ 0) (hreadK : env.readVarObject (toAddr key) = some hdrK)
    (hrefK : hdrK.ob_refcnt ≠ 0)
    (hfindK : findPrinter env.syms (toAddr hdrK.ob_type) = some ⟨.stringPrint, false⟩)
    (htypeK : env.readTypeObject (toAddr hdrK.ob_type) = some ptoK)
    (hfitK : Fits ptoK hdrK nK) (hbufK : env.readBuf (toAddr key) nK.toNat = some bufK)
    (hv : toAddr value ≠ 0) (hreadV : env.readVarObject (toAddr value) = some hdrV)
    (hrefV : hdrV.ob_refcnt ≠ 0)
    (hfindV : findPrinter env.syms (toAddr hdrV.ob_type) = some eV) (hdupV : eV.dupdetect = true)
    (htypeV : env.readTypeObject (toAddr hdrV.ob_type) = some ptoV)
    (hseen : toAddr value ∈ s.visited) :
    ∃ s2, dictLoop env (printWith (printLoop env (g + 1))) pdo n 0 s = some (.ok () s2) ∧
      Leads env s s2
        [.indent, .str "\"", .str bufK.ob_sval, .str "\"", .str ": ", .str "(already seen)",
          .str "\n"]
        [(.stringPrint, toAddr key)] := by
  have hkey0 : key ≠ 0 := by
    intro h
    rw [h] at hk
    exact hk toAddr_zero
  have hval0 : value ≠ 0 := by
    intro h
    rw [h] at hv
    exact hv toAddr_zero
  obtain ⟨rest, rfl⟩ : ∃ rest, n = slot + (rest + 1) := ⟨n - slot - 1, by omega⟩
  -- the empty slots before the entry
  obtain ⟨sa, ha, la⟩ := dictLoop_empty env (printWith (printLoop env (g + 1))) pdo slot 0 s (by
    intro j hj
    have := hothers j (by omega) (by omega)
    simpa using this)
  -- the entry
  have hsb : Leads env sa { sa with trace := sa.trace ++
      [.read .dictEntry (toAddr (pdo.ma_table + env.dictEntrySize * slot)) 1] } [] [] :=
    Leads.readDone env sa _ _ _
  have hsc := Leads.emitted env { sa with trace := sa.trace ++
      [.read .dictEntry (toAddr (pdo.ma_table + env.dictEntrySize * slot)) 1] } sa.depth .indent
  have lc := (la.chain hsb).chain hsc
  obtain ⟨sd, hd, ld⟩ := print_string env g (toAddr key) _ hdrK ptoK nK bufK hk
    (by rw [lc.depth_eq]; exact hdepth) hreadK hrefK hfindK htypeK (lc.types_ok hok) hfitK hbufK
  have le := Leads.emitted env sd sd.depth (.str ": ")
  have lce := (lc.chain ld).chain le
  obtain ⟨sf, hf, lf, _⟩ := print_seen env g (toAddr value) _ hdrV eV ptoV hv
    (by rw [lce.depth_eq]; exact hdepth) hreadV hrefV hfindV hdupV htypeV (lce.types_ok hok)
    (by rw [lce.visited_eq]; exact hseen)
  have lg := Leads.emitted env sf sf.depth (.str "\n")
  have lcg := (lce.chain lf).chain lg
  -- the empty slots after the entry
  obtain ⟨sh, hh, lh⟩ := dictLoop_empty env (printWith (printLoop env (g + 1))) pdo rest
    (slot + 1) { sf with trace := sf.trace ++ [.emit sf.depth (.str "\n")] } (by
      intro j hj
      exact hothers (slot + 1 + j) (by omega) (by omega))
  refine ⟨sh, ?_, ?_⟩
  · have hslotRun : dictSlot env (printWith (printLoop env (g + 1))) pdo slot sa =
        some (.ok () { sf with trace := sf.trace ++ [.emit sf.depth (.str "\n")] }) := by
      unfold dictSlot
      rw [hentry, bind_ok (readM_some _ _ _ _ _)]
      simp only [if_neg hval0, if_pos hkey0]
      rw [bind_ok (emit_apply _ _), bind_ok hd, bind_ok (emitStr_apply _ _), bind_ok hf]
      rfl
    rw [dictLoop_add, bind_ok ha, Nat.zero_add, dictLoop_succ, bind_ok hslotRun, hh]
  · have := lcg.chain lh
    simpa using this

/-- The bound of 50 scanned slots: a dictionary of 64 slots whose single live
entry (a string key, the dictionary itself as value) lies in slot 50 is
printed with no output at all: the loop of `dictPrint` stops after slot 49. -/
theorem print_self_dict_slot_50 :
    farEnv.readDictEntry (toAddr ((6000 : Nat) + farEnv.dictEntrySize * (50 : Nat))) =
        some ⟨7000, 5000⟩ ∧
      pieces (traceOf (print farEnv 5 5000 initState)) = [] ∧
      invokes (traceOf (print farEnv 5 5000 initState)) = [(.dictPrint, 5000)] := by
  refine ⟨?_, ?_, ?_⟩
  · decide!
  · decide!
  · decide!

/-- The slots that `dictPrint` scans: for a dictionary `d`, not yet visited,
whose table holds one live entry, with a string as key and `d` itself as
value, in a slot below both `ma_mask` and 50, all other slots scanned being
empty, `print(d)` calls
`dictPrint` on `d` once and emits exactly the indentation, the key between
quotes, ": ", "(already seen)" and a newline. -/
theorem print_self_dict (env : Env) (fuel : Nat) (d : Addr) (s : PState)
    (hdrD hdrK : PyVarObject) (ptoD ptoK : PyTypeObject) (nD nK : Int) (bufD bufK : Buf)
    (slot key value : Nat)
    (hfuel : 2 ≤ fuel) (hd : d ≠ 0) (hdepth : s.depth < 10000) (hok : TypesOK env s)
    (hnew : d ∉ s.visited)
    (hreadD : env.readVarObject d = some hdrD) (hrefD : hdrD.ob_refcnt ≠ 0)
    (hfindD : findPrinter env.syms (toAddr hdrD.ob_type) = some ⟨.dictPrint, true⟩)
    (htypeD : env.readTypeObject (toAddr hdrD.ob_type) = some ptoD)
    (hfitD : Fits ptoD hdrD nD) (hbufD : env.readBuf d nD.toNat = some bufD)
    (hused : bufD.dict.ma_used ≠ 0)
    (hslot : (slot : Int) < bufD.dict.ma_mask) (hslot50 : slot < 50)
    (hentry : env.readDictEntry (toAddr (bufD.dict.ma_table + env.dictEntrySize * slot)) =
      some ⟨key, value⟩)
    (hvalue : toAddr value = d)
    (hothers : ∀ i : Nat, (i : Int) < bufD.dict.ma_mask → i < 50 → i ≠ slot →
      ∃ e, env.readDictEntry (toAddr (bufD.dict.ma_table + env.dictEntrySize * i)) = some e ∧
        e.me_value = 0)
    (hk : toAddr key ≠ 0) (hreadK : env.readVarObject (toAddr key) = some hdrK)
    (hrefK : hdrK.ob_refcnt ≠ 0)
    (hfindK : findPrinter env.syms (toAddr hdrK.ob_type) = some ⟨.stringPrint, false⟩)
    (htypeK : env.readTypeObject (toAddr hdrK.ob_type) = some ptoK)
    (hfitK : Fits ptoK hdrK nK) (hbufK : env.readBuf (toAddr key) nK.toNat = some bufK) :
    ∃ s2, print env fuel d s = some (.ok () s2) ∧
      pieces s2.trace = pieces s.trace ++
        [.indent, .str "\"", .str bufK.ob_sval, .str "\"", .str ": ", .str "(already seen)",
          .str "\n"] ∧
      invokes s2.trace = invokes s.trace ++ [(.dictPrint, d), (.stringPrint, toAddr key)] := by
  obtain ⟨g, rfl⟩ : ∃ g, fuel = g + 2 := ⟨fuel - 2, by omega⟩
  subst hvalue
  have hstep := printStep_registered env (printWith (printLoop env (g + 1))) (toAddr value)
    { s with depth := s.depth + 1 } hdrD _ ptoD hreadD hrefD hfindD htypeD hok
  -- the printer when `dictPrint` is entered
  obtain ⟨s6, hs6, hdep6, hvis6, hok6, hp6, hi6⟩ : ∃ s6 : PState,
      printObject env (printWith (printLoop env (g + 1))) ⟨.dictPrint, true⟩ ptoD hdrD
          (toAddr value) (typeState (toAddr hdrD.ob_type) ptoD
            { s with depth := s.depth + 1, trace := s.trace ++ [.read .header (toAddr value) 1] }) =
        dictPrint env (printWith (printLoop env (g + 1))) bufD s6 ∧
      s6.depth = s.depth + 1 ∧ toAddr value ∈ s6.visited ∧ TypesOK env s6 ∧
      pieces s6.trace = pieces s.trace ∧
      invokes s6.trace = invokes s.trace ++ [(.dictPrint, toAddr value)] := by
    refine ⟨{ typeState (toAddr hdrD.ob_type) ptoD
          { s with depth := s.depth + 1, trace := s.trace ++ [.read .header (toAddr value) 1] } with
        visited := toAddr value :: s.visited
        trace := (typeState (toAddr hdrD.ob_type) ptoD
          { s with depth := s.depth + 1,
                   trace := s.trace ++ [.read .header (toAddr value) 1] }).trace ++
          [.read .body (toAddr value) nD, .invoke .dictPrint (toAddr value)] }, ?_, ?_, ?_, ?_, ?_, ?_⟩
    · unfold printObject
      rw [if_neg (by simp [typeState_visited, hnew])]
      simp only [fullSize_fits ptoD hdrD nD hfitD, bind_apply, pure_apply,
        if_neg (not_lt.mpr hfitD.1), hbufD, readM_some, logEvent_apply, callPrinter]
      simp [typeState_visited]
    · simp [typeState_depth]
    · simp
    · exact typeState_ok env _ ptoD _ hok htypeD
    · simp only [pieces_append, typeState_pieces]
      simp [pieces]
    · simp only [invokes_append, typeState_invokes]
      simp [invokes]
  obtain ⟨s7, h7, l7⟩ := dictLoop_one_entry env g bufD.dict (min bufD.dict.ma_mask 50).toNat slot
    key value s6 hdrK hdrD ptoK ptoD ⟨.dictPrint, true⟩ nK bufK
    (by omega) (by omega) hok6 hentry
    (by
      intro i hi hne
      exact hothers i (by omega) (by omega) hne)
    hk hreadK hrefK hfindK htypeK hfitK hbufK hd hreadD hrefD hfindD rfl htypeD hvis6
  have hdict : dictPrint env (printWith (printLoop env (g + 1))) bufD s6 = some (.ok 0 s7) := by
    unfold dictPrint
    rw [if_neg hused, bind_ok h7]
    rfl
  have hturn : printStep env (printWith (printLoop env (g + 1))) (toAddr value)
      { s with depth := s.depth + 1 } = some (.ok 0 s7) := by
    rw [hstep]
    exact hs6.trans hdict
  refine ⟨_, printWith_ok _ _ s _ (by omega) (printLoop_one_turn env (g + 1) _ _ _ hd hturn),
    ?_, ?_⟩
  · show pieces s7.trace = _
    rw [l7.pieces_eq, hp6]
  · show invokes s7.trace = _
    rw [l7.invokes_eq, hi6, List.append_assoc]
    rfl

theorem typesOK_init (env : Env) : TypesOK env initState := by
  intro a t pto h
  cases h

theorem print_self_dict_witness :
    ∃ s2, print demoEnv 2 5000 initState = some (.ok () s2) ∧
      pieces s2.trace = pieces initState.trace ++
        [.indent, .str "\"", .str "self", .str "\"", .str ": ", .str "(already seen)",
          .str "\n"] ∧
      invokes s2.trace = invokes initState.trace ++
        [(.dictPrint, 5000), (.stringPrint, toAddr (7000 : Nat))] :=
  print_self_dict demoEnv 2 5000 initState ⟨1, 200, 0⟩ ⟨1, 100, 4⟩ ⟨0, 48, 0, 0, 0⟩
    ⟨0, 37, 1, 0, 0⟩ 48 41 { zeroBuf with dict := ⟨1, 7, 6000⟩ } { zeroBuf with ob_sval := "self" }
    3 7000 5000 (by decide) (by decide) (by decide) (typesOK_init demoEnv) (by decide)
    (by decide) (by decide) (by decide) (by decide)
    ⟨by decide, by decide, by decide, by decide⟩ rfl (by decide) (by decide) (by decide)
    (by decide) (by decide)
    (by
      intro i h1 _ h3
      have h1b : (i : Int) < 7 := h1
      have h7 : i < 7 := by omega
      interval_cases i
      · exact ⟨⟨0, 0⟩, by decide, rfl⟩
      · exact ⟨⟨0, 0⟩, by decide, rfl⟩
      · exact ⟨⟨0, 0⟩, by decide, rfl⟩
      · exact absurd rfl h3
      · exact ⟨⟨0, 0⟩, by decide, rfl⟩
      · exact ⟨⟨0, 0⟩, by decide, rfl⟩
      · exact ⟨⟨0, 0⟩, by decide, rfl⟩)
    (by decide) (by decide) (by decide) (by decide) (by decide)
    ⟨by decide, by decide, by decide, by decide⟩ rfl

end Pstack

namespace Pstack

/-! ## The last slot of a dictionary -/

/-- C8 (the code departs from it): the dictionary `d = {}; d['self'] = d`
with a table of 8 slots (`ma_mask = 7`, far below the bound of 50 scanned
slots) whose entry lies in slot 7, the last slot of the table, is printed
once and with no entry at all: the loop test `i < ma_mask` of `dictPrint`
ends the scan after slot 6.  With the same entry in slot 3 the output is the
key between quotes followed by ": (already seen)". -/
theorem print_self_dict_last_slot :
    (lastSlotEnv.readBuf 5000 48).map
        (fun b => (b.dict.ma_used, b.dict.ma_mask, b.dict.ma_table)) = some (1, 7, 6000) ∧
      lastSlotEnv.readDictEntry (toAddr ((6000 : Nat) + lastSlotEnv.dictEntrySize * (7 : Nat))) =
        some ⟨7000, 5000⟩ ∧
      pieces (traceOf (print lastSlotEnv 4 5000 initState)) = [] ∧
      invokes (traceOf (print lastSlotEnv 4 5000 initState)) = [(.dictPrint, 5000)] ∧
      pieces (traceOf (print demoEnv 4 5000 initState)) =
        [.indent, .str "\"", .str "self", .str "\"", .str ": ", .str "(already seen)",
          .str "\n"] := by
  refine ⟨rfl, ?_, ?_, ?_, ?_⟩
  · decide!
  · decide!
  · decide!
  · decide!

end Pstack

namespace Pstack

/-! ## The long-integer printer -/

theorem longLoop_none (shift : Nat) (digit : Nat → Nat) (n i : Nat) :
    longLoop shift digit n i none = none := by
  induction n generalizing i with
  | zero => rfl
  | succ n ih => simp [longLoop, ih]

theorem longLoop_exact (shift : Nat) (digit : Nat → Nat) (n : Nat) :
    ∀ (i : Nat) (v : Int), 0 ≤ v →
      (∀ j, j < n → shift * (i + j) < 64) →
      v + ((∑ j in Finset.range n, digit (i + j) * 2 ^ (shift * (i + j)) : Nat) : Int) < 2 ^ 63 →
      longLoop shift digit n i (some v) =
        some (v + ((∑ j in Finset.range n, digit (i + j) * 2 ^ (shift * (i + j)) : Nat) : Int)) := by
  induction n with
  | zero => intro i v _ _ _; simp [longLoop]
  | succ n ih =>
    intro i v hv hsh hsum
    rw [Finset.sum_range_succ'] at hsum ⊢
    simp only [Nat.add_zero] at hsum ⊢
    have hc : shift * i < 64 := by simpa using hsh 0 (Nat.succ_pos n)
    have hrest : ∀ j, j < n → shift * (i + 1 + j) < 64 := by
      intro j hj
      have := hsh (j + 1) (Nat.succ_lt_succ hj)
      rwa [show i + (j + 1) = i + 1 + j by omega] at this
    have hS : (∑ j in Finset.range n, digit (i + (j + 1)) * 2 ^ (shift * (i + (j + 1)))) =
        ∑ j in Finset.range n, digit (i + 1 + j) * 2 ^ (shift * (i + 1 + j)) := by
      apply Finset.sum_congr rfl
      intro j _
      rw [show i + (j + 1) = i + 1 + j by omega]
    rw [hS] at hsum ⊢
    push_cast at hsum ⊢
    have ht0 : (0 : Int) ≤ (digit i : Int) * 2 ^ (shift * i) := by positivity
    have hr0 : (0 : Int) ≤ ∑ j in Finset.range n,
        (digit (i + 1 + j) : Int) * 2 ^ (shift * (i + 1 + j)) := by
      apply Finset.sum_nonneg
      intro j _
      positivity
    have e1 : shl64 (digit i) (shift * i) = some ((digit i : Int) * 2 ^ (shift * i)) := by
      unfold shl64
      rw [if_pos hc]
      congr 1
      apply wrapS64_eq <;> push_cast <;> omega
    have e2 : wrapS64 (v + (digit i : Int) * 2 ^ (shift * i)) =
        v + (digit i : Int) * 2 ^ (shift * i) := by
      apply wrapS64_eq <;> omega
    simp only [longLoop, e1, e2]
    have := ih (i + 1) (v + (digit i : Int) * 2 ^ (shift * i)) (by omega) hrest
      (by push_cast; omega)
    rw [this]
    push_cast
    congr 1
    ring

/-- C9 (as stated, refuted): a long integer of three 30-bit digits 0, 0, 8 has
the value 2^63, and `longPrint` emits -2^63. -/
theorem longPrint_wraps :
    traceOf (longPrint demoEnv { zeroBuf with long := ⟨3, fun i => if i = 2 then 8 else 0⟩ }
      initState) = [.emit 0 (.num (some (-9223372036854775808)))] ∧
    longValue demoEnv.pyLongShift (fun i => if i = 2 then 8 else 0) 3 = 9223372036854775808 := by
  constructor
  · decide!
  · decide!

/-- C9 (amended): for a long integer of `ob_size` digits whose shift counts
`PyLong_SHIFT * i` stay below 64 and whose value, the sum of
`digit[i] * 2^(PyLong_SHIFT * i)` over `i` in `[0, ob_size)`, is below 2^63,
`longPrint` emits exactly that value (`ob_size.toNat` is `ob_size` when
`ob_size >= 0`). -/
theorem longPrint_exact (env : Env) (pyo : Buf) (s : PState)
    (hshift : ∀ i, i < pyo.long.ob_size.toNat → env.pyLongShift * i < 64)
    (hfit : longValue env.pyLongShift pyo.long.ob_digit pyo.long.ob_size.toNat < 2 ^ 63) :
    longPrint env pyo s = some (.ok 0 { s with trace := s.trace ++
      [.emit s.depth (.num (some
        (longValue env.pyLongShift pyo.long.ob_digit pyo.long.ob_size.toNat : Nat)))] }) := by
  have h := longLoop_exact env.pyLongShift pyo.long.ob_digit pyo.long.ob_size.toNat 0 0
    (le_refl 0) (by simpa using hshift)
    (by
      simp only [Nat.zero_add, zero_add]
      unfold longValue at hfit
      exact_mod_cast hfit)
  simp only [Nat.zero_add, zero_add] at h
  unfold longPrint
  rw [bind_ok (emit_apply _ _), pure_apply, h]
  rfl

theorem longPrint_exact_witness :
    longPrint demoEnv { zeroBuf with long := ⟨2, fun i => i + 5⟩ } initState =
      some (.ok 0 { initState with trace := initState.trace ++
        [.emit initState.depth (.num (some
          (longValue demoEnv.pyLongShift (fun i => i + 5) (2 : Int).toNat : Nat)))] }) :=
  longPrint_exact demoEnv { zeroBuf with long := ⟨2, fun i => i + 5⟩ } initState
    (by decide) (by decide)

end Pstack

namespace Pstack

/-! ## The indentation pool -/

theorem prefixSpaces_inside (depth : Int) (h0 : 0 ≤ depth) (h1 : depth ≤ 64) :
    prefixSpaces depth = some (String.mk (List.replicate (4 * depth.toNat) ' ')) := by
  unfold prefixSpaces prefixStart spacesLen
  rw [if_pos (by constructor <;> push_cast <;> omega)]
  congr 3
  push_cast
  omega

/-- C10 (the code departs from it): printing the innermost of 33 lists nested
in one another calls `prefix()` with `depth` 66; the slice start is then
`258 - 264 = -6`, before the first byte of the whitespace pool, so no string
of 264 blanks is returned. -/
theorem prefix_outside_pool :
    Event.emit 66 .indent ∈ traceOf (print nestEnv 40 1 initState) ∧
      prefixStart 66 = -6 ∧ prefixSpaces 66 = none := by
  refine ⟨?_, ?_, ?_⟩
  · decide!
  · decide
  · decide

end Pstack

namespace Pstack

/-! ## Weakest preconditions -/

theorem wp_bind {α β : Type} (N : Prop) (m : M α) (f : α → M β) (Q : β → PState → Prop)
    (E : PState → Prop) (s : PState)
    (h : wp N m (fun a s2 => wp N (f a) Q E s2) E s) : wp N (m >>= f) Q E s := by
  unfold wp at h ⊢
  rw [bind_apply]
  cases hm : m s with
  | none => simpa [hm] using h
  | some r =>
    cases r with
    | ok a s2 => simpa [hm, wp] using h
    | thrown s2 => simpa [hm] using h

theorem wp_pure {α : Type} (N : Prop) (a : α) (Q : α → PState → Prop) (E : PState → Prop)
    (s : PState) (h : Q a s) : wp N (pure a) Q E s := h

theorem wp_mono {α : Type} {N N2 : Prop} {m : M α} {Q Q2 : α → PState → Prop}
    {E E2 : PState → Prop} {s : PState} (h : wp N m Q E s) (hN : N → N2)
    (hQ : ∀ a s2, Q a s2 → Q2 a s2) (hE : ∀ s2, E s2 → E2 s2) : wp N2 m Q2 E2 s := by
  unfold wp at h ⊢
  cases hm : m s with
  | none => rw [hm] at h; exact hN h
  | some r =>
    cases r with
    | ok a s2 => rw [hm] at h; exact hQ a s2 h
    | thrown s2 => rw [hm] at h; exact hE s2 h

theorem wp_ite {α : Type} {N : Prop} {c : Prop} [Decidable c] {m1 m2 : M α}
    {Q : α → PState → Prop} {E : PState → Prop} {s : PState}
    (h1 : c → wp N m1 Q E s) (h2 : ¬ c → wp N m2 Q E s) :
    wp N (if c then m1 else m2) Q E s := by
  by_cases h : c
  · rw [if_pos h]; exact h1 h
  · rw [if_neg h]; exact h2 h

/-! ## What each step keeps -/

theorem dedupInvokes_append (t u : List Event) :
    dedupInvokes (t ++ u) = dedupInvokes t ++ dedupInvokes u := by
  simp [dedupInvokes, invokes_append]

theorem Grows.refl (s : PState) : Grows s s := ⟨fun _ h => h, fun _ h => h, id, id⟩

theorem Grows.trans {s s1 s2 : PState} (h1 : Grows s s1) (h2 : Grows s1 s2) : Grows s s2 :=
  ⟨fun a h => h2.visited_sub a (h1.visited_sub a h),
    fun e h => h2.trace_sub e (h1.trace_sub e h), fun h => h2.emit_bound (h1.emit_bound h),
    fun h => h2.once (h1.once h)⟩

theorem Grows.same {s s2 : PState} (ht : s2.trace = s.trace) (hv : s2.visited = s.visited) :
    Grows s s2 := by
  refine ⟨fun a h => by rw [hv]; exact h, fun e h => by rw [ht]; exact h,
    fun h => by rw [ht]; exact h, fun h => ?_⟩
  unfold OncePerAddr at h ⊢
  rw [ht, hv]
  exact h

theorem Grows.emit (s : PState) (d : Int) (p : Piece) (hd : d ≤ 10003) :
    Grows s { s with trace := s.trace ++ [.emit d p] } := by
  refine ⟨fun a h => h, fun e h => List.mem_append_left _ h, fun h => ?_, fun h => ?_⟩
  · intro d2 p2 hmem
    rcases List.mem_append.mp hmem with h1 | h1
    · exact h d2 p2 h1
    · simp only [List.mem_singleton, Event.emit.injEq] at h1
      omega
  · unfold OncePerAddr at h ⊢
    simpa [dedupInvokes_append, dedupInvokes, invokes] using h

theorem Grows.read (s : PState) (k : ReadKind) (a : Addr) (c : Int) :
    Grows s { s with trace := s.trace ++ [.read k a c] } := by
  refine ⟨fun a h => h, fun e h => List.mem_append_left _ h, fun h => ?_, fun h => ?_⟩
  · intro d2 p2 hmem
    rcases List.mem_append.mp hmem with h1 | h1
    · exact h d2 p2 h1
    · simp at h1
  · unfold OncePerAddr at h ⊢
    simpa [dedupInvokes_append, dedupInvokes, invokes] using h

theorem Grows.visit (s : PState) (a : Addr) :
    Grows s { s with visited := a :: s.visited } := by
  refine ⟨fun b h => List.mem_cons_of_mem a h, fun e h => h, id, fun h => ?_⟩
  exact ⟨h.1, fun b hb => List.mem_cons_of_mem a (h.2 b hb)⟩

theorem Inv.weaken {s0 s : PState} {lo hi lo2 hi2 : Int} (h : Inv s0 lo hi s) (h1 : lo2 ≤ lo)
    (h2 : hi ≤ hi2) : Inv s0 lo2 hi2 s :=
  ⟨le_trans h1 h.1, le_trans h.2.1 h2, h.2.2⟩

theorem Inv.step {s0 s s2 : PState} {lo hi lo2 hi2 : Int} (h : Inv s0 lo hi s)
    (hg : Grows s s2) (h1 : lo2 ≤ s2.depth) (h2 : s2.depth ≤ hi2) : Inv s0 lo2 hi2 s2 :=
  ⟨h1, h2, h.2.2.trans hg⟩

theorem toAddr_lt (x : Int) : toAddr x < 2 ^ 64 := by
  unfold toAddr
  have h1 := Int.emod_lt_of_pos x (show (0 : Int) < 2 ^ 64 by norm_num)
  have h0 := Int.emod_nonneg x (show (2 ^ 64 : Int) ≠ 0 by norm_num)
  have h2 : ((x % 2 ^ 64).toNat : Int) < 2 ^ 64 := by
    rw [Int.toNat_of_nonneg h0]
    exact h1
  exact_mod_cast h2

/-! ## Rules for the primitive statements -/

theorem wp_emit {N : Prop} {Q : Unit → PState → Prop} {E : PState → Prop} {s0 s : PState}
    {lo hi : Int} (p : Piece) (h : Inv s0 lo hi s) (hhi : hi ≤ 10003)
    (hQ : ∀ s2, Inv s0 lo hi s2 → Q () s2) : wp N (emit p) Q E s :=
  hQ _ (h.step (Grows.emit s s.depth p (le_trans h.2.1 hhi)) h.1 h.2.1)

theorem wp_emitStr {N : Prop} {Q : Unit → PState → Prop} {E : PState → Prop} {s0 s : PState}
    {lo hi : Int} (t : String) (h : Inv s0 lo hi s) (hhi : hi ≤ 10003)
    (hQ : ∀ s2, Inv s0 lo hi s2 → Q () s2) : wp N (emitStr t) Q E s :=
  wp_emit (.str t) h hhi hQ

theorem wp_incDepth {N : Prop} {Q : Unit → PState → Prop} {E : PState → Prop} {s0 s : PState}
    {lo hi : Int} (h : Inv s0 lo hi s) (hQ : ∀ s2, Inv s0 (lo + 1) (hi + 1) s2 → Q () s2) :
    wp N incDepth Q E s :=
  hQ _ (h.step (Grows.same rfl rfl) (by show lo + 1 ≤ s.depth + 1; have := h.1; omega)
    (by show s.depth + 1 ≤ hi + 1; have := h.2.1; omega))

theorem wp_decDepth {N : Prop} {Q : Unit → PState → Prop} {E : PState → Prop} {s0 s : PState}
    {lo hi : Int} (h : Inv s0 lo hi s) (hQ : ∀ s2, Inv s0 (lo - 1) (hi - 1) s2 → Q () s2) :
    wp N decDepth Q E s :=
  hQ _ (h.step (Grows.same rfl rfl) (by show lo - 1 ≤ s.depth - 1; have := h.1; omega)
    (by show s.depth - 1 ≤ hi - 1; have := h.2.1; omega))

theorem wp_throw {α : Type} {N : Prop} {Q : α → PState → Prop} {E : PState → Prop} {s : PState}
    (h : E s) : wp N (throwM : M α) Q E s := h

theorem wp_readM {α : Type} {N : Prop} {Q : α → PState → Prop} {E : PState → Prop}
    {s0 s : PState} {lo hi : Int} (k : ReadKind) (a : Addr) (c : Int) (r : Option α)
    (h : Inv s0 lo hi s) (hQ : ∀ v s2, r = some v → Inv s0 lo hi s2 → Q v s2)
    (hE : ∀ s2, Inv s0 lo hi s2 → E s2) : wp N (readM k a c r) Q E s := by
  cases r with
  | none => exact hE _ (h.step (Grows.read s k a c) h.1 h.2.1)
  | some v => exact hQ v _ rfl (h.step (Grows.read s k a c) h.1 h.2.1)

theorem wp_call {g : Nat} {pr : Addr → M Unit} {N : Prop} {Q : Unit → PState → Prop}
    {E : PState → Prop} {s0 s : PState} {lo hi : Int} (hpr : CallSpec g pr) (x : Int)
    (hi2 : Int) (h : Inv s0 lo hi s) (h0 : hi ≤ hi2) (h1 : 10001 ≤ hi2)
    (h2 : hi2 ≤ 10003) (hN : g < need s → N) (hQ : ∀ s2, Inv s0 lo hi2 s2 → Q () s2) :
    wp N (pr (toAddr x)) Q E s := by
  refine wp_mono (hpr (toAddr x) s (toAddr_lt x) (by have := h.2.1; omega)) hN ?_
    (fun _ hf => hf.elim)
  intro _ s2 ⟨h3, h4, h5⟩
  exact hQ s2 (h.step h5 (by have := h.1; omega) (by have := h.2.1; omega))

end Pstack

namespace Pstack

/-! ## The per-type printers keep the invariants -/

theorem PrinterOK.simple {N : Prop} {s0 s : PState} {x : Int} {isFrame : Prop}
    (h : Inv s0 x 10001 s) : PrinterOK N s0 x isFrame (pure 0) s :=
  ⟨h, fun h0 => (h0 rfl).elim⟩

theorem stringPrint_ok {N : Prop} {s0 s : PState} {x : Int} (pyo : Buf)
    (h : Inv s0 x 10001 s) : PrinterOK N s0 x False (stringPrint pyo) s := by
  unfold PrinterOK stringPrint
  refine wp_bind _ _ _ _ _ _ (wp_emitStr _ h (by norm_num) fun s1 h1 => ?_)
  refine wp_bind _ _ _ _ _ _ (wp_emitStr _ h1 (by norm_num) fun s2 h2 => ?_)
  refine wp_bind _ _ _ _ _ _ (wp_emitStr _ h2 (by norm_num) fun s3 h3 => ?_)
  exact PrinterOK.simple h3

theorem one_emit_ok {N : Prop} {s0 s : PState} {x : Int} (p : Piece)
    (h : Inv s0 x 10001 s) :
    PrinterOK N s0 x False (do emit p; pure 0) s := by
  unfold PrinterOK
  refine wp_bind _ _ _ _ _ _ (wp_emit _ h (by norm_num) fun s1 h1 => ?_)
  exact PrinterOK.simple h1

theorem typePrint_ok {N : Prop} {s0 s : PState} {x : Int} (env : Env) (pyo : Buf)
    (h : Inv s0 x 10001 s) : PrinterOK N s0 x False (typePrint env pyo) s := by
  unfold PrinterOK typePrint
  refine wp_bind _ _ _ _ _ _ (wp_emitStr _ h (by norm_num) fun s1 h1 => ?_)
  refine wp_bind _ _ _ _ _ _ (wp_readM _ _ _ _ h1 (fun name s2 _ h2 => ?_)
    (fun s2 h2 => h2.weaken le_rfl (by norm_num)))
  refine wp_bind _ _ _ _ _ _ (wp_emitStr _ h2 (by norm_num) fun s3 h3 => ?_)
  refine wp_bind _ _ _ _ _ _ (wp_emitStr _ h3 (by norm_num) fun s4 h4 => ?_)
  exact PrinterOK.simple h4

theorem heapPrint_ok {g : Nat} {pr : Addr → M Unit} {N : Prop} {s0 s : PState} {x : Int}
    (hpr : CallSpec g pr) (env : Env) (pto : PyTypeObject) (remote : Addr)
    (h : Inv s0 x 10001 s) (HN : ∀ t, Inv s0 x 10003 t → g < need t → N) :
    PrinterOK N s0 x False (heapPrint env pr pto remote) s := by
  unfold PrinterOK heapPrint
  refine wp_bind _ _ _ _ _ _ (wp_readM _ _ _ _ h (fun name s1 _ h1 => ?_)
    (fun s1 h1 => h1.weaken le_rfl (by norm_num)))
  refine wp_bind _ _ _ _ _ _ (wp_emitStr _ h1 (by norm_num) fun s2 h2 => ?_)
  refine wp_ite (fun _ => ?_) (fun _ => PrinterOK.simple h2)
  refine wp_bind _ _ _ _ _ _ (wp_emitStr _ h2 (by norm_num) fun s3 h3 => ?_)
  refine wp_bind _ _ _ _ _ _ (wp_incDepth h3 fun s4 h4 => ?_)
  refine wp_bind _ _ _ _ _ _ (wp_readM _ _ _ _ h4 (fun dictAddr s5 _ h5 => ?_)
    (fun s5 h5 => h5.weaken (by omega) (by norm_num)))
  refine wp_bind _ _ _ _ _ _ (wp_call hpr _ 10002 h5 (by norm_num) (by norm_num) (by norm_num)
    (HN s5 (h5.weaken (by omega) (by norm_num))) fun s6 h6 => ?_)
  refine wp_bind _ _ _ _ _ _ (wp_decDepth h6 fun s7 h7 => ?_)
  refine wp_bind _ _ _ _ _ _ (wp_emitStr _ h7 (by norm_num) fun s8 h8 => ?_)
  exact PrinterOK.simple (h8.weaken (by omega) (by norm_num))

theorem classPrint_ok {g : Nat} {pr : Addr → M Unit} {N : Prop} {s0 s : PState} {x : Int}
    (hpr : CallSpec g pr) (pyo : Buf)
    (h : Inv s0 x 10001 s) (HN : ∀ t, Inv s0 x 10003 t → g < need t → N) :
    PrinterOK N s0 x False (classPrint pr pyo) s := by
  unfold PrinterOK classPrint
  refine wp_bind _ _ _ _ _ _ (wp_emitStr _ h (by norm_num) fun s1 h1 => ?_)
  refine wp_bind _ _ _ _ _ _ (wp_call hpr _ 10001 h1 (by norm_num) (by norm_num) (by norm_num)
    (HN s1 (h1.weaken (by omega) (by norm_num))) fun s2 h2 => ?_)
  refine wp_bind _ _ _ _ _ _ (wp_emitStr _ h2 (by norm_num) fun s3 h3 => ?_)
  exact PrinterOK.simple h3

theorem instancePrint_ok {g : Nat} {pr : Addr → M Unit} {N : Prop} {s0 s : PState} {x : Int}
    (hpr : CallSpec g pr) (pyo : Buf)
    (h : Inv s0 x 10001 s) (HN : ∀ t, Inv s0 x 10003 t → g < need t → N) :
    PrinterOK N s0 x False (instancePrint pr pyo) s := by
  unfold PrinterOK instancePrint
  refine wp_bind _ _ _ _ _ _ (wp_incDepth h fun s1 h1 => ?_)
  refine wp_bind _ _ _ _ _ _ (wp_emitStr _ h1 (by norm_num) fun s2 h2 => ?_)
  refine wp_bind _ _ _ _ _ _ (wp_emit _ h2 (by norm_num) fun s3 h3 => ?_)
  refine wp_bind _ _ _ _ _ _ (wp_emitStr _ h3 (by norm_num) fun s4 h4 => ?_)
  refine wp_bind _ _ _ _ _ _ (wp_incDepth h4 fun s5 h5 => ?_)
  refine wp_bind _ _ _ _ _ _ (wp_call hpr _ 10003 h5 (by norm_num) (by norm_num) (by norm_num)
    (HN s5 (h5.weaken (by omega) (by norm_num))) fun s6 h6 => ?_)
  refine wp_bind _ _ _ _ _ _ (wp_decDepth h6 fun s7 h7 => ?_)
  refine wp_bind _ _ _ _ _ _ (wp_emitStr _ h7 (by norm_num) fun s8 h8 => ?_)
  refine wp_bind _ _ _ _ _ _ (wp_emit _ h8 (by norm_num) fun s9 h9 => ?_)
  refine wp_bind _ _ _ _ _ _ (wp_emitStr _ h9 (by norm_num) fun s10 h10 => ?_)
  refine wp_bind _ _ _ _ _ _ (wp_incDepth h10 fun s11 h11 => ?_)
  refine wp_bind _ _ _ _ _ _ (wp_call hpr _ 10003 h11 (by norm_num) (by norm_num) (by norm_num)
    (HN s11 (h11.weaken (by omega) (by norm_num))) fun s12 h12 => ?_)
  refine wp_bind _ _ _ _ _ _ (wp_decDepth h12 fun s13 h13 => ?_)
  refine wp_bind _ _ _ _ _ _ (wp_decDepth h13 fun s14 h14 => ?_)
  exact PrinterOK.simple (h14.weaken (by omega) (by norm_num))

theorem listLoop_ok {g : Nat} {pr : Addr → M Unit} {N : Prop} {s0 : PState} {x : Int}
    {Q : Unit → PState → Prop} {E : PState → Prop} (hpr : CallSpec g pr)
    (HN : ∀ t, Inv s0 x 10003 t → g < need t → N) (objects : List Nat) :
    ∀ s, Inv s0 x 10002 s → (∀ s2, Inv s0 x 10002 s2 → Q () s2) →
      wp N (listLoop pr objects) Q E s := by
  induction objects with
  | nil => intro s h hQ; exact hQ s h
  | cons addr rest ih =>
    intro s h hQ
    unfold listLoop
    refine wp_bind _ _ _ _ _ _ (wp_emit _ h (by norm_num) fun s1 h1 => ?_)
    refine wp_bind _ _ _ _ _ _ (wp_call hpr _ 10002 h1 (by norm_num) (by norm_num)
      (by norm_num) (HN s1 (h1.weaken le_rfl (by norm_num))) fun s2 h2 => ?_)
    refine wp_bind _ _ _ _ _ _ (wp_emitStr _ h2 (by norm_num) fun s3 h3 => ?_)
    exact ih s3 h3 hQ

theorem listPrint_ok {g : Nat} {pr : Addr → M Unit} {N : Prop} {s0 s : PState} {x : Int}
    (hpr : CallSpec g pr) (env : Env) (pyo : Buf)
    (h : Inv s0 x 10001 s) (HN : ∀ t, Inv s0 x 10003 t → g < need t → N) :
    PrinterOK N s0 x False (listPrint env pr pyo) s := by
  unfold PrinterOK listPrint
  refine wp_bind _ _ _ _ _ _ (wp_emitStr _ h (by norm_num) fun s1 h1 => ?_)
  refine wp_bind _ _ _ _ _ _ (wp_readM _ _ _ _ h1 (fun objects s2 _ h2 => ?_)
    (fun s2 h2 => h2.weaken le_rfl (by norm_num)))
  refine wp_bind _ _ _ _ _ _ (wp_incDepth h2 fun s3 h3 => ?_)
  refine wp_bind _ _ _ _ _ _ (listLoop_ok hpr
    (fun t ht => HN t (ht.weaken (by omega) le_rfl)) objects s3 (h3.weaken le_rfl (by norm_num))
    fun s4 h4 => ?_)
  refine wp_bind _ _ _ _ _ _ (wp_decDepth h4 fun s5 h5 => ?_)
  refine wp_bind _ _ _ _ _ _ (wp_emitStr _ h5 (by norm_num) fun s6 h6 => ?_)
  exact PrinterOK.simple (h6.weaken (by omega) (by norm_num))

theorem dictSlot_ok {g : Nat} {pr : Addr → M Unit} {N : Prop} {s0 s : PState} {x : Int}
    {Q : Unit → PState → Prop} {E : PState → Prop} (hpr : CallSpec g pr)
    (HN : ∀ t, Inv s0 x 10003 t → g < need t → N) (env : Env) (pdo : PyDictObject) (i : Nat)
    (h : Inv s0 x 10001 s) (hQ : ∀ s2, Inv s0 x 10001 s2 → Q () s2)
    (hE : ∀ s2, Inv s0 x 10001 s2 → E s2) :
    wp N (dictSlot env pr pdo i) Q E s := by
  unfold dictSlot
  refine wp_bind _ _ _ _ _ _ (wp_readM _ _ _ _ h (fun pde s1 _ h1 => ?_) hE)
  refine wp_ite (fun _ => hQ s1 h1) (fun _ => ?_)
  refine wp_ite (fun _ => ?_) (fun _ => hQ s1 h1)
  refine wp_bind _ _ _ _ _ _ (wp_emit _ h1 (by norm_num) fun s2 h2 => ?_)
  refine wp_bind _ _ _ _ _ _ (wp_call hpr _ 10001 h2 (by norm_num) (by norm_num)
    (by norm_num) (HN s2 (h2.weaken le_rfl (by norm_num))) fun s3 h3 => ?_)
  refine wp_bind _ _ _ _ _ _ (wp_emitStr _ h3 (by norm_num) fun s4 h4 => ?_)
  refine wp_bind _ _ _ _ _ _ (wp_call hpr _ 10001 h4 (by norm_num) (by norm_num)
    (by norm_num) (HN s4 (h4.weaken le_rfl (by norm_num))) fun s5 h5 => ?_)
  exact wp_emitStr _ h5 (by norm_num) hQ

theorem dictLoop_ok {g : Nat} {pr : Addr → M Unit} {N : Prop} {s0 : PState} {x : Int}
    {Q : Unit → PState → Prop} {E : PState → Prop} (hpr : CallSpec g pr)
    (HN : ∀ t, Inv s0 x 10003 t → g < need t → N) (env : Env) (pdo : PyDictObject) (n : Nat) :
    ∀ i s, Inv s0 x 10001 s → (∀ s2, Inv s0 x 10001 s2 → Q () s2) →
      (∀ s2, Inv s0 x 10001 s2 → E s2) → wp N (dictLoop env pr pdo n i) Q E s := by
  induction n with
  | zero => intro i s h hQ _; exact hQ s h
  | succ n ih =>
    intro i s h hQ hE
    rw [dictLoop_succ]
    exact wp_bind _ _ _ _ _ _ (dictSlot_ok hpr HN env pdo i h (fun s2 h2 => ih (i + 1) s2 h2 hQ hE)
      hE)

theorem dictPrint_ok {g : Nat} {pr : Addr → M Unit} {N : Prop} {s0 s : PState} {x : Int}
    (hpr : CallSpec g pr) (env : Env) (pyo : Buf)
    (h : Inv s0 x 10001 s) (HN : ∀ t, Inv s0 x 10003 t → g < need t → N) :
    PrinterOK N s0 x False (dictPrint env pr pyo) s := by
  unfold PrinterOK dictPrint
  refine wp_ite (fun _ => PrinterOK.simple h) (fun _ => ?_)
  refine wp_bind _ _ _ _ _ _ (dictLoop_ok hpr HN env pyo.dict _ 0 s h
    (fun s2 h2 => PrinterOK.simple h2) (fun s2 h2 => h2.weaken le_rfl (by norm_num)))

theorem tupleLoop_ok {g : Nat} {pr : Addr → M Unit} {N : Prop} {s0 : PState} {x : Int}
    {Q : Unit → PState → Prop} {E : PState → Prop} (hpr : CallSpec g pr)
    (HN : ∀ t, Inv s0 x 10003 t → g < need t → N) (names : List Nat) :
    ∀ (vals : List Nat) s, Inv s0 x 10003 s → (∀ s2, Inv s0 x 10003 s2 → Q () s2) →
      wp N (tupleLoop pr names vals) Q E s := by
  induction names with
  | nil => intro vals s h hQ; exact hQ s h
  | cons name rest ih =>
    intro vals s h hQ
    cases vals with
    | nil => exact hQ s h
    | cons val vals =>
      unfold tupleLoop
      refine wp_bind _ _ _ _ _ _ (wp_emit _ h (by norm_num) fun s1 h1 => ?_)
      refine wp_bind _ _ _ _ _ _ (wp_call hpr _ 10003 h1 (by norm_num) (by norm_num)
        (by norm_num) (HN s1 h1) fun s2 h2 => ?_)
      refine wp_bind _ _ _ _ _ _ (wp_emitStr _ h2 (by norm_num) fun s3 h3 => ?_)
      refine wp_bind _ _ _ _ _ _ (wp_call hpr _ 10003 h3 (by norm_num) (by norm_num)
        (by norm_num) (HN s3 h3) fun s4 h4 => ?_)
      refine wp_bind _ _ _ _ _ _ (wp_emitStr _ h4 (by norm_num) fun s5 h5 => ?_)
      exact ih vals s5 h5 hQ

theorem printTupleVars_ok {g : Nat} {pr : Addr → M Unit} {N : Prop} {s0 s : PState} {x : Int}
    {Q : Int → PState → Prop} {E : PState → Prop} (hpr : CallSpec g pr)
    (HN : ∀ t, Inv s0 x 10003 t → g < need t → N) (env : Env) (namesAddr valuesAddr : Addr)
    (type : String) (maxvals : Int)
    (h : Inv s0 x 10002 s) (hQ : ∀ r s2, Inv s0 x 10002 s2 → Q r s2)
    (hE : ∀ s2, Inv s0 x 10002 s2 → E s2) :
    wp N (printTupleVars env pr namesAddr valuesAddr type maxvals) Q E s := by
  unfold printTupleVars
  refine wp_bind _ _ _ _ _ _ (wp_readM _ _ _ _ h (fun names s1 _ h1 => ?_) hE)
  refine wp_ite (fun _ => hQ _ s1 h1) (fun _ => ?_)
  refine wp_ite (fun _ => hE s1 h1) (fun _ => ?_)
  refine wp_bind _ _ _ _ _ _ (wp_readM _ _ _ _ h1 (fun varnames s2 _ h2 => ?_) hE)
  refine wp_bind _ _ _ _ _ _ (wp_readM _ _ _ _ h2 (fun varvals s3 _ h3 => ?_) hE)
  refine wp_bind _ _ _ _ _ _ (wp_emit _ h3 (by norm_num) fun s4 h4 => ?_)
  refine wp_bind _ _ _ _ _ _ (wp_emitStr _ h4 (by norm_num) fun s5 h5 => ?_)
  refine wp_bind _ _ _ _ _ _ (wp_emitStr _ h5 (by norm_num) fun s6 h6 => ?_)
  refine wp_bind _ _ _ _ _ _ (wp_emitStr _ h6 (by norm_num) fun s7 h7 => ?_)
  refine wp_bind _ _ _ _ _ _ (wp_incDepth h7 fun s8 h8 => ?_)
  refine wp_bind _ _ _ _ _ _ (tupleLoop_ok hpr
    (fun t ht => HN t (ht.weaken (by omega) le_rfl)) varnames varvals s8
    (h8.weaken le_rfl (by norm_num)) fun s9 h9 => ?_)
  refine wp_bind _ _ _ _ _ _ (wp_decDepth h9 fun s10 h10 => ?_)
  exact hQ _ s10 (h10.weaken (by omega) (by norm_num))

theorem getLine_ok {N : Prop} {s0 s : PState} {lo hi : Int} {Q : Option Int → PState → Prop}
    {E : PState → Prop} (env : Env) (code : PyCodeObject) (frame : PyFrameObject)
    (h : Inv s0 lo hi s) (hQ : ∀ r s2, Inv s0 lo hi s2 → Q r s2)
    (hE : ∀ s2, Inv s0 lo hi s2 → E s2) : wp N (getLine env code frame) Q E s := by
  unfold getLine
  refine wp_bind _ _ _ _ _ _ (wp_readM _ _ _ _ h (fun lnotab s1 _ h1 => ?_) hE)
  refine wp_bind _ _ _ _ _ _ (wp_readM _ _ _ _ h1 (fun linedata s2 _ h2 => ?_) hE)
  exact hQ _ s2 h2

theorem frameArgs_ok {g : Nat} {pr : Addr → M Unit} {N : Prop} {s0 s : PState} {x : Int}
    {Q : Unit → PState → Prop} {E : PState → Prop} (hpr : CallSpec g pr)
    (HN : ∀ t, Inv s0 x 10003 t → g < need t → N) (env : Env) (code : PyCodeObject)
    (remoteAddr : Addr) (h : Inv s0 x 10001 s) (hQ : ∀ s2, Inv s0 x 10001 s2 → Q () s2)
    (hE : ∀ s2, Inv s0 x 10002 s2 → E s2) :
    wp N (frameArgs env pr code remoteAddr) Q E s := by
  have hE2 : ∀ s2, Inv s0 (x + 1) 10002 s2 → E s2 :=
    fun s2 h2 => hE s2 (h2.weaken (by omega) le_rfl)
  have HN2 : ∀ t, Inv s0 (x + 1) 10003 t → g < need t → N :=
    fun t ht => HN t (ht.weaken (by omega) le_rfl)
  unfold frameArgs
  refine wp_ite (fun _ => ?_) (fun _ => hQ s h)
  refine wp_bind _ _ _ _ _ _ (wp_incDepth h fun s12 h12 => ?_)
  refine wp_bind _ _ _ _ _ _ (printTupleVars_ok hpr HN2 env _ _ _ _ h12
    (fun _ s13 h13 => ?_) hE2)
  refine wp_bind _ _ _ _ _ _ (printTupleVars_ok hpr HN2 env _ _ _ _ h13
    (fun cellcount s14 h14 => ?_) hE2)
  refine wp_bind _ _ _ _ _ _ (printTupleVars_ok hpr HN2 env _ _ _ _ h14
    (fun _ s15 h15 => ?_) hE2)
  exact wp_decDepth h15 fun s16 h16 => hQ s16 (h16.weaken (by omega) (by norm_num))

theorem frameCode_ok {g : Nat} {pr : Addr → M Unit} {N : Prop} {s0 s : PState} {x : Int}
    {Q : Unit → PState → Prop} {E : PState → Prop} (hpr : CallSpec g pr)
    (HN : ∀ t, Inv s0 x 10003 t → g < need t → N) (env : Env) (pfo : PyFrameObject)
    (remoteAddr : Addr) (h : Inv s0 x 10001 s) (hQ : ∀ s2, Inv s0 x 10001 s2 → Q () s2)
    (hE : ∀ s2, Inv s0 x 10002 s2 → E s2) :
    wp N (frameCode env pr pfo remoteAddr) Q E s := by
  have hE1 : ∀ s2, Inv s0 x 10001 s2 → E s2 :=
    fun s2 h2 => hE s2 (h2.weaken le_rfl (by norm_num))
  unfold frameCode
  refine wp_ite (fun _ => ?_) (fun _ => hQ s h)
  refine wp_bind _ _ _ _ _ _ (wp_readM _ _ _ _ h (fun code s1 _ h1 => ?_) hE1)
  refine wp_bind _ _ _ _ _ _ (getLine_ok env code _ h1 (fun lineNo s2 h2 => ?_) hE1)
  refine wp_bind _ _ _ _ _ _ (wp_readM _ _ _ _ h2 (fun func s3 _ h3 => ?_) hE1)
  refine wp_bind _ _ _ _ _ _ (wp_readM _ _ _ _ h3 (fun file s4 _ h4 => ?_) hE1)
  refine wp_bind _ _ _ _ _ _ (wp_emit _ h4 (by norm_num) fun s5 h5 => ?_)
  refine wp_bind _ _ _ _ _ _ (wp_emitStr _ h5 (by norm_num) fun s6 h6 => ?_)
  refine wp_bind _ _ _ _ _ _ (wp_emitStr _ h6 (by norm_num) fun s7 h7 => ?_)
  refine wp_bind _ _ _ _ _ _ (wp_emitStr _ h7 (by norm_num) fun s8 h8 => ?_)
  refine wp_bind _ _ _ _ _ _ (wp_emitStr _ h8 (by norm_num) fun s9 h9 => ?_)
  refine wp_bind _ _ _ _ _ _ (wp_emit _ h9 (by norm_num) fun s10 h10 => ?_)
  refine wp_bind _ _ _ _ _ _ (wp_emitStr _ h10 (by norm_num) fun s11 h11 => ?_)
  exact frameArgs_ok hpr HN env code remoteAddr h11 hQ hE

theorem frameLocals_ok {g : Nat} {pr : Addr → M Unit} {N : Prop} {s0 s : PState} {x : Int}
    {Q : Unit → PState → Prop} {E : PState → Prop} (hpr : CallSpec g pr)
    (HN : ∀ t, Inv s0 x 10003 t → g < need t → N) (env : Env) (pfo : PyFrameObject)
    (h : Inv s0 x 10001 s) (hQ : ∀ s2, Inv s0 x 10001 s2 → Q () s2) :
    wp N (frameLocals env pr pfo) Q E s := by
  unfold frameLocals
  refine wp_ite (fun _ => ?_) (fun _ => hQ s h)
  refine wp_bind _ _ _ _ _ _ (wp_incDepth h fun s3 h3 => ?_)
  refine wp_bind _ _ _ _ _ _ (wp_emit _ h3 (by norm_num) fun s4 h4 => ?_)
  refine wp_bind _ _ _ _ _ _ (wp_emitStr _ h4 (by norm_num) fun s5 h5 => ?_)
  refine wp_bind _ _ _ _ _ _ (wp_emitStr _ h5 (by norm_num) fun s6 h6 => ?_)
  refine wp_bind _ _ _ _ _ _ (wp_call hpr _ 10002 h6 (by norm_num) (by norm_num)
    (by norm_num) (HN s6 (h6.weaken (by omega) (by norm_num))) fun s7 h7 => ?_)
  exact wp_decDepth h7 fun s8 h8 => hQ s8 (h8.weaken (by omega) (by norm_num))

theorem framePrint_ok {g : Nat} {pr : Addr → M Unit} {N : Prop} {s0 s : PState} {x : Int}
    (hpr : CallSpec g pr) (env : Env) (pyo : Buf) (remoteAddr : Addr)
    (h : Inv s0 x 10001 s) (HN : ∀ t, Inv s0 x 10003 t → g < need t → N) :
    PrinterOK N s0 x True (framePrint env pr pyo remoteAddr) s := by
  unfold PrinterOK framePrint
  refine wp_bind _ _ _ _ _ _ (frameCode_ok hpr HN env _ remoteAddr h (fun s1 h1 => ?_)
    (fun _ h2 => h2))
  refine wp_bind _ _ _ _ _ _ (frameLocals_ok hpr HN env _ h1 (fun s2 h2 => ?_))
  exact ⟨h2, fun _ => ⟨trivial, toAddr_lt _⟩⟩

theorem callPrinter_ok {g : Nat} {pr : Addr → M Unit} {N : Prop} {s0 s : PState} {x : Int}
    (hpr : CallSpec g pr) (env : Env) (k : PrinterKind) (pyo : Buf) (pto : PyTypeObject)
    (remoteAddr : Addr) (h : Inv s0 x 10001 s)
    (HN : ∀ t, Inv s0 x 10003 t → g < need t → N) :
    PrinterOK N s0 x (k = .framePrint) (callPrinter env pr k pyo pto remoteAddr) s := by
  have weak : ∀ m : M Addr, PrinterOK N s0 x False m s →
      PrinterOK N s0 x (k = .framePrint) m s :=
    fun m hm => wp_mono hm id (fun r s2 h2 => ⟨h2.1, fun hr => (h2.2 hr).1.elim⟩) (fun _ h2 => h2)
  cases k with
  | heapPrint => exact weak _ (heapPrint_ok hpr env pto remoteAddr h HN)
  | stringPrint => exact weak _ (stringPrint_ok pyo h)
  | floatPrint => exact weak _ (one_emit_ok _ h)
  | intPrint => exact weak _ (one_emit_ok _ h)
  | boolPrint => exact weak _ (one_emit_ok _ h)
  | modulePrint => exact weak _ (one_emit_ok _ h)
  | listPrint => exact weak _ (listPrint_ok hpr env pyo h HN)
  | classPrint => exact weak _ (classPrint_ok hpr pyo h HN)
  | dictPrint => exact weak _ (dictPrint_ok hpr env pyo h HN)
  | typePrint => exact weak _ (typePrint_ok env pyo h)
  | instancePrint => exact weak _ (instancePrint_ok hpr pyo h HN)
  | longPrint => exact weak _ (one_emit_ok _ h)
  | framePrint =>
    exact wp_mono (framePrint_ok hpr env pyo remoteAddr h HN) id
      (fun r s2 h2 => ⟨h2.1, fun hr => ⟨rfl, (h2.2 hr).2⟩⟩) (fun _ h2 => h2)

end Pstack

namespace Pstack

/-! ## One turn of the loop of `print` keeps the invariants -/

theorem wp_congr {α : Type} {N : Prop} {m m2 : M α} {Q : α → PState → Prop}
    {E : PState → Prop} {s s2 : PState} (heq : m s = m2 s2) (h : wp N m2 Q E s2) :
    wp N m Q E s := by
  unfold wp at h ⊢
  rw [heq]
  exact h

theorem wp_tryCatch {N : Prop} {m h : M Unit} {Q : Unit → PState → Prop} {E : PState → Prop}
    {s : PState} (hm : wp N m Q (fun s2 => wp N h Q E s2) s) : wp N (tryCatch m h) Q E s := by
  unfold wp at hm ⊢
  unfold tryCatch
  cases hms : m s with
  | none => simpa [hms] using hm
  | some r =>
    cases r with
    | ok a s2 => simpa [hms] using hm
    | thrown s2 => simpa [hms, wp] using hm

theorem wp_setType {N : Prop} {Q : Unit → PState → Prop} {E : PState → Prop} {s0 s : PState}
    {lo hi : Int} (a : Addr) (t : PyTypeObject) (h : Inv s0 lo hi s)
    (hQ : ∀ s2, Inv s0 lo hi s2 → Q () s2) : wp N (setType a t) Q E s :=
  hQ _ (h.step (Grows.same rfl rfl) h.1 h.2.1)

theorem typeFor_ok {N : Prop} {Q : PyTypeObject → PState → Prop} {E : PState → Prop}
    {s0 s : PState} {lo hi : Int} (env : Env) (a : Addr) (h : Inv s0 lo hi s)
    (hQ : ∀ pto s2, Inv s0 lo hi s2 → Q pto s2) (hE : ∀ s2, Inv s0 lo hi s2 → E s2) :
    wp N (typeFor env a) Q E s := by
  cases hf : findType s.types a with
  | some pto =>
    have heq : typeFor env a s = (pure pto : M PyTypeObject) s := by
      unfold typeFor
      rw [hf]
      rfl
    exact wp_congr heq (hQ pto s h)
  | none =>
    have heq : typeFor env a s = (do
        setType a zeroType
        let pto ← readM .typeObject a 1 (env.readTypeObject a)
        setType a pto
        pure pto : M PyTypeObject) s := by
      unfold typeFor
      rw [hf]
    refine wp_congr heq ?_
    refine wp_bind _ _ _ _ _ _ (wp_setType _ _ h fun s1 h1 => ?_)
    refine wp_bind _ _ _ _ _ _ (wp_readM _ _ _ _ h1 (fun pto s2 _ h2 => ?_) hE)
    refine wp_bind _ _ _ _ _ _ (wp_setType _ _ h2 fun s3 h3 => ?_)
    exact hQ pto s3 h3

theorem fallbackPrinter_ok {N : Prop} {Q : Option PyPrinterEntry → PState → Prop}
    {E : PState → Prop} {s0 s : PState} {lo hi : Int} (env : Env) (pto : PyTypeObject)
    (baseObj : PyVarObject) (remoteAddr : Addr) (h : Inv s0 lo hi s) (hhi : hi ≤ 10003)
    (hQ : ∀ r s2, (∀ e, r = some e → e = heapPrinter) → Inv s0 lo hi s2 → Q r s2)
    (hE : ∀ s2, Inv s0 lo hi s2 → E s2) :
    wp N (fallbackPrinter env pto baseObj remoteAddr) Q E s := by
  unfold fallbackPrinter
  refine wp_bind _ _ _ _ _ _ (wp_readM _ _ _ _ h (fun tn s1 _ h1 => ?_) hE)
  refine wp_ite (fun _ => ?_) (fun _ => ?_)
  · refine wp_bind _ _ _ _ _ _ (wp_emitStr _ h1 hhi fun s2 h2 => ?_)
    exact hQ none s2 (fun e he => by cases he) h2
  · refine wp_ite (fun _ => ?_) (fun _ => ?_)
    · exact hQ (some heapPrinter) s1 (fun e he => by cases he; rfl) h1
    · refine wp_bind _ _ _ _ _ _ (wp_emit _ h1 hhi fun s2 h2 => ?_)
      refine wp_bind _ _ _ _ _ _ (wp_emitStr _ h2 hhi fun s3 h3 => ?_)
      refine wp_bind _ _ _ _ _ _ (wp_emitStr _ h3 hhi fun s4 h4 => ?_)
      refine wp_bind _ _ _ _ _ _ (wp_emitStr _ h4 hhi fun s5 h5 => ?_)
      refine wp_bind _ _ _ _ _ _ (wp_emit _ h5 hhi fun s6 h6 => ?_)
      exact hQ none s6 (fun e he => by cases he) h6

theorem findPrinter_dup (t : TypeSyms) (a : Addr) (e : PyPrinterEntry)
    (h : findPrinter t a = some e) : e.dupdetect = dupKind e.printer := by
  unfold findPrinter at h
  obtain ⟨x, hx, rfl⟩ := Option.map_eq_some'.mp h
  have hmem := List.mem_of_find?_eq_some hx
  simp only [printers, List.mem_cons, List.mem_singleton, List.not_mem_nil, or_false] at hmem
  rcases hmem with h | h | h | h | h | h | h | h | h | h | h | h <;> rw [h] <;> rfl

theorem Grows.invoke (s : PState) (k : PrinterKind) (a : Addr) (dup : Bool) (evs : List Event)
    (hdup : dup = dupKind k) (hnew : dup = true → a ∉ s.visited)
    (hevs : ∀ e ∈ evs, ∃ rk ra rc, e = Event.read rk ra rc) :
    Grows s { s with visited := if dup then a :: s.visited else s.visited
                     trace := s.trace ++ evs ++ [.invoke k a] } := by
  have hq : dedupInvokes evs = [] := by
    induction evs with
    | nil => rfl
    | cons e rest ih =>
      obtain ⟨rk, ra, rc, rfl⟩ := hevs _ (List.mem_cons_self _ _)
      have := ih (fun e he => hevs e (List.mem_cons_of_mem _ he))
      simpa [dedupInvokes, invokes] using this
  refine ⟨fun b h => ?_, fun e h => ?_, fun h => ?_, fun h => ?_⟩
  · show b ∈ (if dup then a :: s.visited else s.visited)
    split
    · exact List.mem_cons_of_mem a h
    · exact h
  · exact List.mem_append_left _ (List.mem_append_left _ h)
  · intro d p hmem
    simp only [List.mem_append, List.mem_singleton] at hmem
    rcases hmem with (h1 | h1) | h1
    · exact h d p h1
    · obtain ⟨rk, ra, rc, he⟩ := hevs _ h1
      cases he
    · cases h1
  · unfold OncePerAddr at h ⊢
    simp only [dedupInvokes_append, hq, List.append_nil]
    cases hd : dup with
    | false =>
      have hk : dupKind k = false := by rw [← hdup, hd]
      simpa [dedupInvokes, invokes, hk] using h
    | true =>
      have hk : dupKind k = true := by rw [← hdup, hd]
      have hnot : a ∉ dedupInvokes s.trace := fun hm => hnew hd (h.2 a hm)
      have hone : dedupInvokes [Event.invoke k a] = [a] := by
        simp [dedupInvokes, invokes, hk]
      rw [hone]
      constructor
      · rw [List.nodup_append]
        refine ⟨h.1, List.nodup_singleton a, ?_⟩
        intro b hb hb2
        rw [List.mem_singleton] at hb2
        subst hb2
        exact hnot hb
      · intro b hb
        simp only [if_true]
        rcases List.mem_append.mp hb with h1 | h1
        · exact List.mem_cons_of_mem a (h.2 b h1)
        · rw [List.mem_singleton] at h1
          subst h1
          exact List.mem_cons_self _ _

theorem Inv.rebase {s0 s1 s : PState} {lo hi : Int} (h : Inv s1 lo hi s) (hg : Grows s0 s1) :
    Inv s0 lo hi s :=
  ⟨h.1, h.2.1, hg.trans h.2.2⟩

theorem printObject_ok {g : Nat} {pr : Addr → M Unit} {N : Prop} {s0 s : PState} {x : Int}
    (hpr : CallSpec g pr) (env : Env) (printer : PyPrinterEntry) (pto : PyTypeObject)
    (baseObj : PyVarObject) (remoteAddr : Addr)
    (hdup : printer.dupdetect = dupKind printer.printer)
    (hframe : printer.printer = .framePrint → printer.dupdetect = true)
    (h : Inv s0 x 10001 s) (HN : ∀ t, Inv s0 x 10003 t → g < need t → N) :
    wp N (printObject env pr printer pto baseObj remoteAddr)
      (fun r s2 => Inv s0 x 10001 s2 ∧
        (r ≠ 0 → r < 2 ^ 64 ∧ remoteAddr ∉ s0.visited ∧ remoteAddr ∈ s2.visited))
      (fun s2 => Inv s0 x 10002 s2) s := by
  by_cases hc : printer.dupdetect = true ∧ remoteAddr ∈ s.visited
  · have heq : printObject env pr printer pto baseObj remoteAddr s =
        (do emitStr "(already seen)"; pure 0 : M Addr) s := by
      unfold printObject
      rw [if_pos hc]
    refine wp_congr heq ?_
    refine wp_bind _ _ _ _ _ _ (wp_emitStr _ h (by norm_num) fun s1 h1 => ?_)
    exact ⟨h1, fun h0 => (h0 rfl).elim⟩
  · have hnew : printer.dupdetect = true → remoteAddr ∉ s.visited := fun hd hv => hc ⟨hd, hv⟩
    have heq : printObject env pr printer pto baseObj remoteAddr s =
        (do
          let sz ← fullSize pto baseObj
          match sz with
          | none => pure 0
          | some n =>
            let buf ← readM .body remoteAddr n
              (if n < 0 then none else env.readBuf remoteAddr n.toNat)
            logEvent (.invoke printer.printer remoteAddr)
            callPrinter env pr printer.printer buf pto remoteAddr : M Addr)
          (if printer.dupdetect then { s with visited := remoteAddr :: s.visited } else s) := by
      unfold printObject
      rw [if_neg hc]
    refine wp_congr heq ?_
    -- the state once the address is marked, and the state when the printer is called
    have hmark : Grows s
        (if printer.dupdetect then { s with visited := remoteAddr :: s.visited } else s) := by
      split
      · exact Grows.visit s remoteAddr
      · exact Grows.refl s
    have hdepth : (if printer.dupdetect then { s with visited := remoteAddr :: s.visited }
        else s).depth = s.depth := by
      split <;> rfl
    have h1 : Inv s0 x 10001
        (if printer.dupdetect then { s with visited := remoteAddr :: s.visited } else s) :=
      h.step hmark (by rw [hdepth]; exact h.1) (by rw [hdepth]; exact h.2.1)
    have run : ∀ n : Int, wp N (do
          let buf ← readM .body remoteAddr n
            (if n < 0 then none else env.readBuf remoteAddr n.toNat)
          logEvent (.invoke printer.printer remoteAddr)
          callPrinter env pr printer.printer buf pto remoteAddr : M Addr)
        (fun r s2 => Inv s0 x 10001 s2 ∧
          (r ≠ 0 → r < 2 ^ 64 ∧ remoteAddr ∉ s0.visited ∧ remoteAddr ∈ s2.visited))
        (fun s2 => Inv s0 x 10002 s2)
        (if printer.dupdetect then { s with visited := remoteAddr :: s.visited } else s) := by
      intro n
      cases hb : (if n < 0 then none else env.readBuf remoteAddr n.toNat) with
      | none =>
        refine wp_bind _ _ _ _ _ _ ?_
        exact (wp_readM _ _ _ _ h1 (fun v s2 hv _ => by cases hv)
          (fun s2 h2 => h2.weaken le_rfl (by norm_num)))
      | some buf =>
        have hg : Grows s
            { s with visited := if printer.dupdetect then remoteAddr :: s.visited else s.visited
                     trace := s.trace ++ [.read .body remoteAddr n] ++
                       [.invoke printer.printer remoteAddr] } :=
          Grows.invoke s printer.printer remoteAddr printer.dupdetect _ hdup hnew (by
            intro e he
            rw [List.mem_singleton] at he
            exact ⟨_, _, _, he⟩)
        have h3 := @Inv.step _ _ _ _ _ x 10001 h hg h.1 h.2.1
        have hrun := callPrinter_ok hpr env printer.printer buf pto remoteAddr
          (⟨h.1, h.2.1, Grows.refl _⟩ : Inv _ x 10001
            { s with visited := if printer.dupdetect then remoteAddr :: s.visited else s.visited
                     trace := s.trace ++ [.read .body remoteAddr n] ++
                       [.invoke printer.printer remoteAddr] })
          (fun t ht => HN t (ht.rebase h3.2.2))
        have heq2 : (do
              let buf ← readM .body remoteAddr n (some buf)
              logEvent (.invoke printer.printer remoteAddr)
              callPrinter env pr printer.printer buf pto remoteAddr : M Addr)
            (if printer.dupdetect then { s with visited := remoteAddr :: s.visited } else s) =
            callPrinter env pr printer.printer buf pto remoteAddr
              { s with visited := if printer.dupdetect then remoteAddr :: s.visited
                                  else s.visited
                       trace := s.trace ++ [.read .body remoteAddr n] ++
                         [.invoke printer.printer remoteAddr] } := by
          rw [bind_ok (readM_some _ _ _ _ _), bind_ok (logEvent_apply _ _)]
          cases printer.dupdetect <;> rfl
        refine wp_congr heq2 (wp_mono hrun id ?_ (fun _ h2 => h2.rebase h3.2.2))
        intro r s2 ⟨hi2, hr⟩
        refine ⟨hi2.rebase h3.2.2, fun hr0 => ?_⟩
        obtain ⟨hk, hlt⟩ := hr hr0
        have hd := hframe hk
        refine ⟨hlt, fun hv => hnew hd (h.2.2.visited_sub _ hv), ?_⟩
        apply hi2.2.2.visited_sub
        show remoteAddr ∈ (if printer.dupdetect then remoteAddr :: s.visited else s.visited)
        rw [hd]
        exact List.mem_cons_self _ _
    unfold fullSize
    refine wp_bind _ _ _ _ _ _ ?_
    refine wp_ite (fun _ => ?_) (fun _ => run _)
    refine wp_ite (fun _ => ?_) (fun _ => run _)
    refine wp_bind _ _ _ _ _ _ (wp_emitStr _ h1 (by norm_num) fun s2 h2 => ?_)
    refine wp_bind _ _ _ _ _ _ (wp_emit _ h2 (by norm_num) fun s3 h3 => ?_)
    refine wp_bind _ _ _ _ _ _ (wp_emitStr _ h3 (by norm_num) fun s4 h4 => ?_)
    exact ⟨h4, fun h0 => (h0 rfl).elim⟩

theorem printStep_ok {g : Nat} {pr : Addr → M Unit} {N : Prop} {s0 s : PState} {x : Int}
    (hpr : CallSpec g pr) (env : Env) (remoteAddr : Addr)
    (h : Inv s0 x 10001 s) (HN : ∀ t, Inv s0 x 10003 t → g < need t → N) :
    wp N (printStep env pr remoteAddr)
      (fun r s2 => Inv s0 x 10001 s2 ∧
        (r ≠ 0 → r < 2 ^ 64 ∧ remoteAddr ∉ s0.visited ∧ remoteAddr ∈ s2.visited))
      (fun s2 => Inv s0 x 10002 s2) s := by
  have hE : ∀ s2, Inv s0 x 10001 s2 → Inv s0 x 10002 s2 :=
    fun s2 h2 => h2.weaken le_rfl (by norm_num)
  unfold printStep
  refine wp_bind _ _ _ _ _ _ (wp_readM _ _ _ _ h (fun baseObj s1 _ h1 => ?_) hE)
  refine wp_ite (fun _ => ?_) (fun _ => ?_)
  · refine wp_bind _ _ _ _ _ _ (wp_emitStr _ h1 (by norm_num) fun s2 h2 => ?_)
    exact ⟨h2, fun h0 => (h0 rfl).elim⟩
  · refine wp_bind _ _ _ _ _ _ (typeFor_ok env _ h1 (fun pto s2 h2 => ?_) hE)
    have final : ∀ (printer : Option PyPrinterEntry) (s3 : PState),
        (∀ e, printer = some e → e.dupdetect = dupKind e.printer ∧
          (e.printer = .framePrint → e.dupdetect = true)) →
        Inv s0 x 10001 s3 →
        wp N (match printer with
            | none => pure 0
            | some e => printObject env pr e pto baseObj remoteAddr)
          (fun r s2 => Inv s0 x 10001 s2 ∧
            (r ≠ 0 → r < 2 ^ 64 ∧ remoteAddr ∉ s0.visited ∧ remoteAddr ∈ s2.visited))
          (fun s2 => Inv s0 x 10002 s2) s3 := by
      intro printer s3 hp h3
      cases printer with
      | none => exact ⟨h3, fun h0 => (h0 rfl).elim⟩
      | some e =>
        obtain ⟨hd, hf⟩ := hp e rfl
        exact printObject_ok hpr env e pto baseObj remoteAddr hd hf h3 HN
    cases hfound : findPrinter env.syms (toAddr baseObj.ob_type) with
    | some e =>
      refine wp_bind _ _ _ _ _ _ ?_
      refine final (some e) s2 ?_ h2
      intro e2 he2
      cases he2
      have hd := findPrinter_dup _ _ _ hfound
      refine ⟨hd, fun hk => ?_⟩
      rw [hd, hk]
      rfl
    | none =>
      refine wp_bind _ _ _ _ _ _ (fallbackPrinter_ok env pto baseObj remoteAddr h2 (by norm_num)
        (fun r s3 hr h3 => ?_) hE)
      refine final r s3 ?_ h3
      intro e he
      rw [hr e he]
      exact ⟨rfl, fun _ => rfl⟩

/-! ## The budget -/

theorem unvisited_mono {s t : PState} (h : ∀ a ∈ s.visited, a ∈ t.visited) :
    unvisited t ≤ unvisited s := by
  unfold unvisited
  apply Finset.card_le_card
  intro a ha
  simp only [Finset.mem_filter] at ha ⊢
  exact ⟨ha.1, fun hs => ha.2 (h a hs)⟩

theorem unvisited_lt {s t : PState} (h : ∀ a ∈ s.visited, a ∈ t.visited) (a : Addr)
    (ha : a < 2 ^ 64) (hs : a ∉ s.visited) (ht : a ∈ t.visited) :
    unvisited t < unvisited s := by
  unfold unvisited
  apply Finset.card_lt_card
  rw [Finset.ssubset_iff_of_subset]
  · exact ⟨a, Finset.mem_filter.mpr ⟨Finset.mem_range.mpr ha, hs⟩,
      fun hm => (Finset.mem_filter.mp hm).2 ht⟩
  · intro b hb
    simp only [Finset.mem_filter] at hb ⊢
    exact ⟨hb.1, fun hs2 => hb.2 (h b hs2)⟩

/-! ## `print` keeps the invariants and ends -/

theorem printWith_ok_call {g : Nat} {loop : Addr → M Unit}
    (hloop : ∀ (a : Addr) (s : PState), a < 2 ^ 64 → s.depth ≤ 10001 →
      wp (g < loopNeed s) (loop a) (fun _ s2 => Inv s s.depth 10001 s2)
        (fun s2 => Inv s s.depth 10002 s2) s) :
    CallSpec g (printWith loop) := by
  intro a s ha hdepth
  by_cases hdeep : s.depth > 10000
  · have heq : printWith loop a s = (do emitStr "too deep"; emitStr "\n" : M Unit) s := by
      unfold printWith
      rw [if_pos hdeep]
    refine wp_congr heq ?_
    have h0 : Inv s s.depth s.depth s := ⟨le_rfl, le_rfl, Grows.refl s⟩
    refine wp_bind _ _ _ _ _ _ (wp_emitStr _ h0 hdepth fun s1 h1 => ?_)
    refine wp_emitStr _ h1 hdepth fun s2 h2 => ?_
    exact ⟨h2.1, Or.inl h2.2.1, h2.2.2⟩
  · have heq : printWith loop a s = (do
        incDepth
        tryCatch (loop a) (emitStr "(print failed)")
        decDepth : M Unit) s := by
      unfold printWith
      rw [if_neg hdeep]
    refine wp_congr heq ?_
    have hneed : need s = loopNeed { s with depth := s.depth + 1 } := by
      unfold need loopNeed unvisited
      rw [if_neg hdeep]
      show _ = (10002 - (s.depth + 1)).toNat + _ + 1
      rw [show (10002 : Int) - (s.depth + 1) = 10001 - s.depth by ring]
    have fin : ∀ s3, Inv { s with depth := s.depth + 1 } (s.depth + 1) 10002 s3 →
        wp (g < need s) decDepth
          (fun _ s2 => s.depth ≤ s2.depth ∧ (s2.depth ≤ s.depth ∨ s2.depth ≤ 10001) ∧ Grows s s2)
          (fun _ => False) s3 := by
      intro s3 h3
      refine wp_decDepth h3 fun s4 h4 => ?_
      refine ⟨by have := h4.1; omega, Or.inr (by have := h4.2.1; omega), ?_⟩
      exact (@Grows.same s { s with depth := s.depth + 1 } rfl rfl).trans h4.2.2
    have h1 := hloop a { s with depth := s.depth + 1 } ha (by show s.depth + 1 ≤ 10001; omega)
    rw [← hneed] at h1
    refine wp_bind _ _ _ _ _ _ ?_
    show wp _ _ _ _ { s with depth := s.depth + 1 }
    refine wp_bind _ _ _ _ _ _ (wp_tryCatch (wp_mono h1 id ?_ ?_))
    · intro _ s2 h2
      exact fin s2 (h2.weaken le_rfl (by norm_num))
    · intro s2 h2
      exact wp_emitStr _ h2 (by norm_num) fun s3 h3 => fin s3 h3

theorem printLoop_ok (env : Env) (g : Nat) :
    ∀ (a : Addr) (s : PState), a < 2 ^ 64 → s.depth ≤ 10001 →
      wp (g < loopNeed s) (printLoop env g a) (fun _ s2 => Inv s s.depth 10001 s2)
        (fun s2 => Inv s s.depth 10002 s2) s := by
  induction g with
  | zero =>
    intro a s _ hdepth
    by_cases ha0 : a = 0
    · subst ha0
      rw [printLoop_zero]
      exact ⟨le_rfl, hdepth, Grows.refl s⟩
    · have heq : printLoop env 0 a s = none := by simp [printLoop, ha0]
      unfold wp
      rw [heq]
      unfold loopNeed
      omega
  | succ g ih =>
    intro a s ha hdepth
    by_cases ha0 : a = 0
    · subst ha0
      rw [printLoop_zero]
      exact ⟨le_rfl, hdepth, Grows.refl s⟩
    · rw [printLoop_succ env g a ha0]
      have h0 : Inv s s.depth 10001 s := ⟨le_rfl, hdepth, Grows.refl s⟩
      have HN : ∀ t, Inv s s.depth 10003 t → g < need t → g + 1 < loopNeed s := by
        intro t ht hlt
        unfold need at hlt
        unfold loopNeed
        have hu := unvisited_mono ht.2.2.visited_sub
        have hd := ht.1
        split at hlt
        · omega
        · omega
      refine wp_bind _ _ _ _ _ _ (wp_mono (printStep_ok (printWith_ok_call ih) env a h0 HN) id
        ?_ (fun _ h2 => h2))
      intro r s2 ⟨h2, hr⟩
      by_cases hr0 : r = 0
      · subst hr0
        rw [printLoop_zero]
        exact h2
      · obtain ⟨hlt, hnot, hin⟩ := hr hr0
        refine wp_mono (ih r s2 hlt h2.2.1) ?_ ?_ ?_
        · intro hg
          have hu := unvisited_lt h2.2.2.visited_sub a ha hnot hin
          have hd := h2.1
          unfold loopNeed at hg ⊢
          omega
        · intro _ s3 h3
          exact (h3.rebase h2.2.2).weaken h2.1 le_rfl
        · intro s3 h3
          exact (h3.rebase h2.2.2).weaken h2.1 le_rfl

theorem print_callSpec (env : Env) (g : Nat) : CallSpec g (print env g) :=
  printWith_ok_call (printLoop_ok env g)

end Pstack

namespace Pstack

/-! ## Termination -/

theorem print_ends_ok (env : Env) (fuel : Nat) (a : Addr) (s : PState) (ha : a < 2 ^ 64)
    (hdepth : s.depth ≤ 10003) (hfuel : need s ≤ fuel) :
    ∃ s2, print env fuel a s = some (.ok () s2) ∧ s.depth ≤ s2.depth ∧
      (s2.depth ≤ s.depth ∨ s2.depth ≤ 10001) ∧ Grows s s2 := by
  have h := print_callSpec env fuel a s ha hdepth
  unfold wp at h
  cases hp : print env fuel a s with
  | none =>
    rw [hp] at h
    exact absurd h (by omega)
  | some r =>
    rw [hp] at h
    cases r with
    | ok u s2 => exact ⟨s2, rfl, h⟩
    | thrown s2 => exact h.elim

theorem print_returns (env : Env) (a : Addr) (s : PState) (fuel : Nat) (ha : a < 2 ^ 64)
    (hfuel : need s ≤ fuel) : ∃ s2, print env fuel a s = some (.ok () s2) := by
  by_cases hdepth : s.depth ≤ 10003
  · obtain ⟨s2, h2, _⟩ := print_ends_ok env fuel a s ha hdepth hfuel
    exact ⟨s2, h2⟩
  · refine ⟨{ s with trace := s.trace ++ [.emit s.depth (.str "too deep")] ++
      [.emit s.depth (.str "\n")] }, ?_⟩
    show printWith (printLoop env fuel) a s = _
    unfold printWith
    rw [if_pos (by omega)]
    rfl

/-- C2: for every target and every state of the printer, a call of `print` on
a 64-bit address ends: with a budget of at least `need s` (the levels left
below the depth cap plus the addresses not yet visited) the model returns,
and it returns normally. -/
theorem print_terminates (env : Env) (a : Addr) (s : PState) (fuel : Nat) (ha : a < 2 ^ 64)
    (hfuel : need s ≤ fuel) : ∃ s2, print env fuel a s = some (.ok () s2) :=
  print_returns env a s fuel ha hfuel

theorem print_terminates_witness :
    ∃ s2, print demoEnv (need initState) 5000 initState = some (.ok () s2) :=
  print_terminates demoEnv 5000 initState (need initState) (by norm_num) (le_refl _)

/-! ## The depth of the emissions -/

/-- C3 (amended): a call of `print` made with `depth <= 10003` on a printer
whose emissions so far were all made with `depth <= 10003` (a new printer,
and then every call that follows) returns, leaves `depth <= 10003`, and every
emission made during the call, by `print` or by a per-type printer, was made
with `depth <= 10003`, the cap plus three. -/
theorem print_emit_bound (env : Env) (a : Addr) (s : PState) (fuel : Nat) (ha : a < 2 ^ 64)
    (hdepth : s.depth ≤ 10003) (hbound : EmitBound 10003 s.trace) (hfuel : need s ≤ fuel) :
    ∃ s2, print env fuel a s = some (.ok () s2) ∧ s2.depth ≤ 10003 ∧
      EmitBound 10003 s2.trace := by
  obtain ⟨s2, h2, _, hd, hg⟩ := print_ends_ok env fuel a s ha hdepth hfuel
  exact ⟨s2, h2, by omega, hg.emit_bound hbound⟩

theorem print_emit_bound_witness :
    ∃ s2, print demoEnv (need initState) 5000 initState = some (.ok () s2) ∧
      s2.depth ≤ 10003 ∧ EmitBound 10003 s2.trace :=
  print_emit_bound demoEnv 5000 initState (need initState) (by norm_num) (by decide)
    (fun _ _ h => nomatch h) (le_refl _)

end Pstack

namespace Pstack

/-! ## A chain that reaches the cap -/

theorem printWith_deep (loop : Addr → M Unit) (a : Addr) (s : PState) (h : s.depth > 10000) :
    printWith loop a s = some (.ok ()
      { s with trace := s.trace ++ [.emit s.depth (.str "too deep")] ++
          [.emit s.depth (.str "\n")] }) := by
  unfold printWith
  rw [if_pos h]
  rfl

theorem toAddr_small (x : Nat) (h : x < 2 ^ 64) : toAddr (x : Int) = x := by
  unfold toAddr
  have h1 : ((x : Int)) % 2 ^ 64 = x := Int.emod_eq_of_lt (by positivity) (by exact_mod_cast h)
  rw [h1]
  rfl

theorem instancePrint_deep (loop : Addr → M Unit) (pyo : Buf) (t : PState)
    (h : 10000 ≤ t.depth) :
    ∃ t2, instancePrint (printWith loop) pyo t = some (.ok 0 t2) ∧
      Event.emit (t.depth + 1) .indent ∈ t2.trace := by
  have e1 := fun (a : Addr) (u : PState) (hu : u.depth > 10000) => printWith_deep loop a u hu
  unfold instancePrint
  simp only [bind_apply, pure_apply, incDepth_apply, emitStr_apply, emit_apply, decDepth_apply]
  rw [e1 _ _ (by show t.depth + 1 + 1 > 10000; omega)]
  simp only []
  rw [e1 _ _ (by show t.depth + 1 + 1 - 1 + 1 > 10000; omega)]
  simp only []
  refine ⟨_, rfl, ?_⟩
  simp

theorem chain_instance (g : Nat) (s : PState) (hd : s.depth = 10000)
    (hok : TypesOK chainEnv s) (hv : 10001 ∉ s.visited) :
    ∃ s2, printWith (printLoop chainEnv (g + 1)) 10001 s = some (.ok () s2) ∧
      Event.emit 10002 .indent ∈ s2.trace := by
  have hstep := printStep_registered chainEnv (printWith (printLoop chainEnv g)) 10001
    { s with depth := s.depth + 1 } ⟨1, 800, 0⟩ ⟨.instancePrint, true⟩ ⟨0, 48, 0, 0, 0⟩
    rfl (by decide) (by decide) rfl hok
  have hobj : ∃ s2, printStep chainEnv (printWith (printLoop chainEnv g)) 10001
      { s with depth := s.depth + 1 } = some (.ok 0 s2) ∧
      Event.emit 10002 .indent ∈ s2.trace := by
    rw [hstep]
    unfold printObject
    rw [if_neg (by simp [typeState_visited, hv])]
    rw [fullSize_fits _ _ 48 (by simp [Fits])]
    rw [bind_ok (pure_apply _ _)]
    dsimp only
    change ∃ s2, (readM .body 10001 48 (some { zeroBuf with cl_name := 10002 }) >>= _) _ = _ ∧ _
    rw [bind_ok (readM_some _ _ _ _ _), bind_ok (logEvent_apply _ _)]
    refine Exists.imp (fun t2 h => ⟨h.1, ?_⟩) (instancePrint_deep (printLoop chainEnv g)
      { zeroBuf with cl_name := 10002 } _ ?_)
    · have hm := h.2
      simp only [if_pos, typeState_depth] at hm
      rw [hd] at hm
      exact hm
    · simp only [if_pos, typeState_depth]
      omega
  obtain ⟨s2, h2, hm⟩ := hobj
  exact ⟨_, printWith_ok _ 10001 s _ (by omega) (printLoop_one_turn chainEnv g 10001 _ _
    (by decide) h2), hm⟩

theorem classPrint_mem (pr : Addr → M Unit) (pyo : Buf) (t : PState) (e : Event)
    (h : ∃ t5, pr (toAddr pyo.cl_name)
        { t with trace := t.trace ++ [.emit t.depth (.str "<class ")] } = some (.ok () t5) ∧
      e ∈ t5.trace) :
    ∃ t2, classPrint pr pyo t = some (.ok 0 t2) ∧ e ∈ t2.trace := by
  obtain ⟨t5, h5, hm⟩ := h
  unfold classPrint
  rw [bind_ok (emitStr_apply _ _), bind_ok h5, bind_ok (emitStr_apply _ _)]
  exact ⟨_, rfl, List.mem_append_left _ hm⟩

theorem chain_class (j : Nat) : ∀ (g : Nat) (s : PState), j ≤ g → j ≤ 10000 →
    s.depth = 10000 - (j : Int) → TypesOK chainEnv s → 10001 ∉ s.visited →
    ∃ s2, printWith (printLoop chainEnv (g + 1)) (10001 - j) s = some (.ok () s2) ∧
      Event.emit 10002 .indent ∈ s2.trace := by
  induction j with
  | zero =>
    intro g s _ _ hd hok hv
    exact chain_instance g s (by simpa using hd) hok hv
  | succ j ih =>
    intro g s hg hj hd hok hv
    obtain ⟨g2, rfl⟩ : ∃ g2, g = g2 + 1 := ⟨g - 1, by omega⟩
    have ha1 : 1 ≤ 10001 - (j + 1) ∧ 10001 - (j + 1) ≤ 10000 := by omega
    have hrd : chainEnv.readVarObject (10001 - (j + 1)) = some ⟨1, 1000, 0⟩ := by
      show (if 1 ≤ 10001 - (j + 1) ∧ 10001 - (j + 1) ≤ 10000 then _ else _) = _
      rw [if_pos ha1]
    have hstep := printStep_registered chainEnv (printWith (printLoop chainEnv (g2 + 1)))
      (10001 - (j + 1)) { s with depth := s.depth + 1 } ⟨1, 1000, 0⟩ ⟨.classPrint, false⟩
      ⟨0, 48, 0, 0, 0⟩ hrd (by decide) (by decide) rfl hok
    have haddr : toAddr ((10001 - (j + 1) + 1 : Nat) : Int) = 10001 - j := by
      rw [toAddr_small _ (lt_of_le_of_lt (show 10001 - (j + 1) + 1 ≤ 10001 by omega)
        (by norm_num))]
      show 10001 - (j + 1) + 1 = 10001 - j
      omega
    have hobj : ∃ s2, printStep chainEnv (printWith (printLoop chainEnv (g2 + 1)))
        (10001 - (j + 1)) { s with depth := s.depth + 1 } = some (.ok 0 s2) ∧
        Event.emit 10002 .indent ∈ s2.trace := by
      rw [hstep]
      unfold printObject
      rw [if_neg (by simp)]
      rw [fullSize_fits _ _ 48 (by simp [Fits])]
      rw [bind_ok (pure_apply _ _)]
      dsimp only
      change ∃ s2, (readM .body _ 48 (some { zeroBuf with cl_name := 10001 - (j + 1) + 1 })
        >>= _) _ = _ ∧ _
      rw [bind_ok (readM_some _ _ _ _ _), bind_ok (logEvent_apply _ _)]
      refine classPrint_mem _ _ _ _ ?_
      dsimp only
      rw [haddr]
      refine ih g2 _ (by omega) (by omega) ?_ ?_ ?_
      · simp only [Bool.false_eq_true, if_false, typeState_depth]
        push_cast at hd
        omega
      · simp only [Bool.false_eq_true, if_false]
        exact typeState_ok chainEnv _ _ _ hok rfl
      · simp only [Bool.false_eq_true, if_false, typeState_visited]
        exact hv
    obtain ⟨s2, h2, hm⟩ := hobj
    have hd2 : s.depth ≤ 10000 := by
      rw [hd]
      omega
    have hne : 10001 - (j + 1) ≠ 0 := by omega
    exact ⟨_, printWith_ok _ _ s _ hd2 (printLoop_one_turn chainEnv (g2 + 1) _ _ _ hne h2), hm⟩

/-- C3, as stated, fails: printing the head of a chain of 10000 classic
classes that ends in a classic instance, `print` ends normally and the
instance printer has emitted its indentation while `depth` was 10002, two
levels above the cap, so the emissions are not bounded by 10001. -/
theorem print_emits_above_cap :
    ∃ s2, print chainEnv 10002 1 initState = some (.ok () s2) ∧
      Event.emit 10002 .indent ∈ s2.trace ∧ ¬ EmitBound 10001 s2.trace := by
  obtain ⟨s2, h, hm⟩ := chain_class 10000 10001 initState (by omega) (by omega) rfl
    (typesOK_init _) (by simp [initState])
  exact ⟨s2, h, hm, fun hb => absurd (hb _ _ hm) (by omega)⟩

end Pstack

namespace Pstack

/-! ## Objects already visited -/

end Pstack

namespace Pstack

/-! ## Failures stay inside `print` -/

theorem printWith_thrown (loop : Addr → M Unit) (a : Addr) (s t : PState)
    (hdepth : s.depth ≤ 10000)
    (h : loop a { s with depth := s.depth + 1 } = some (.thrown t)) :
    printWith loop a s = some (.ok ()
      { t with trace := t.trace ++ [.emit t.depth (.str "(print failed)")],
               depth := t.depth - 1 }) := by
  unfold printWith
  rw [if_neg (by omega), bind_ok (incDepth_apply _)]
  simp only [bind_apply, tryCatch, h, emitStr_apply, decDepth_apply]

theorem printLoop_header_fails (env : Env) (g : Nat) (a : Addr) (s : PState) (ha : a ≠ 0)
    (hread : env.readVarObject a = none) :
    printLoop env (g + 1) a s =
      some (.thrown { s with trace := s.trace ++ [.read .header a 1] }) := by
  rw [printLoop_succ env g a ha]
  unfold printStep
  rw [hread, bind_assoc_M, bind_thrown (readM_none _ _ _ _)]

/-- C11: for every target and every address, a call of `print` with enough
fuel returns normally, never with a failure passed on to its caller.  When
the `while` of `print` is left by a failure in the state `t` (a failed read
of the header, of the type descriptor, of the type name, of the body, or a
failure inside the per-type printer), `print` returns normally with
"(print failed)" emitted after `t` and its own increment of `depth` undone;
in particular this is what a failed read of the header gives. -/
theorem print_never_throws (env : Env) (a : Addr) (s : PState) (fuel : Nat) (ha : a < 2 ^ 64)
    (hfuel : need s ≤ fuel) :
    ∃ s2, print env fuel a s = some (.ok () s2) ∧
      (∀ t, s.depth ≤ 10000 →
        printLoop env fuel a { s with depth := s.depth + 1 } = some (.thrown t) →
        s2 = { t with trace := t.trace ++ [.emit t.depth (.str "(print failed)")],
                      depth := t.depth - 1 }) ∧
      (s.depth ≤ 10000 → a ≠ 0 → env.readVarObject a = none →
        s2 = { s with trace := s.trace ++ [.read .header a 1] ++
          [.emit (s.depth + 1) (.str "(print failed)")] }) := by
  obtain ⟨s2, h⟩ := print_returns env a s fuel ha hfuel
  have key : ∀ t, s.depth ≤ 10000 →
      printLoop env fuel a { s with depth := s.depth + 1 } = some (.thrown t) →
      s2 = { t with trace := t.trace ++ [.emit t.depth (.str "(print failed)")],
                    depth := t.depth - 1 } := by
    intro t hd ht
    have h2 := printWith_thrown (printLoop env fuel) a s t hd ht
    unfold print at h
    rw [h2] at h
    injection h with h
    injection h with _ h
    exact h.symm
  refine ⟨s2, h, key, ?_⟩
  intro hd ha0 hread
  obtain ⟨g, rfl⟩ : ∃ g, fuel = g + 1 := by
    unfold need at hfuel
    rw [if_neg (by omega)] at hfuel
    exact ⟨fuel - 1, by omega⟩
  rw [key _ hd (printLoop_header_fails env g a _ ha0 hread)]
  cases s
  simp

theorem print_never_throws_witness :
    ∃ s2, print demoEnv (need initState) 1 initState = some (.ok () s2) ∧
      s2 = { initState with trace := [.read .header 1 1] ++
        [.emit 1 (.str "(print failed)")] } := by
  obtain ⟨s2, h, _, h3⟩ := print_never_throws demoEnv 1 initState (need initState)
    (by norm_num) (le_refl _)
  exact ⟨s2, h, h3 (by decide) (by decide) rfl⟩

end Pstack

namespace Pstack

/-! ## The depth counter after a failed read -/

/-- C12 (the code departs from it): `heapPrint` increments `depth` before it
reads the instance-dictionary pointer; when that read fails, the handler of
`print` emits "(print failed)" and `print` undoes only its own increment, so
the call entered with `depth = 0` returns with `depth = 1`. -/
theorem print_depth_leak :
    initState.depth = 0 ∧ depthOf (print leakEnv 2 1 initState) = some 1 ∧
      pieces (traceOf (print leakEnv 2 1 initState)) =
        [.str "Foo", .str "\n", .str "(print failed)"] ∧
      invokes (traceOf (print leakEnv 2 1 initState)) = [(.heapPrint, 1)] := by
  refine ⟨rfl, ?_, ?_, ?_⟩
  · decide!
  · decide!
  · decide!

end Pstack
